import Mathlib

/-!
Shallow embedding of the massive-MIMO slicing simulator (`simulation.py`,
`utilities/stats.py`, `slices/node.py`).

Conventions of the embedding:
* Python ints are `Int`/`Nat`; the logical clock and deadlines are `Int`
  (all claim-relevant comparisons are order comparisons on exact values).
* The per-class send queues are `List Event`; `list.insert(0, e)` is `e :: q`;
  `list.remove(e)` is `List.erase` (Python removal is by object identity, so
  theorems that need it carry a `Nodup` hypothesis making structural equality
  agree with identity).
* Python's stable `list.sort(key=...)` is `List.insertionSort` (stable);
  `reverse=True` flips the comparison, matching CPython's stable descending sort.
* The `Event`, `Slice` and `Trace` classes are not under `src/`; their fields
  and construction are modelled from the spec: an event carries
  `type/time/dead_time/node_id/counter`, a slice is an index-stable node pool,
  the trace sink records one `(event, report_time, success)` entry per report,
  and nodes start with `active`/`assigned` false.  Everything the five policies,
  expiry and dispatch do is translated from `simulation.py` itself.
* The event heap and the arrival generators are external to the claims: runs
  are quantified over explicit lists of handled events instead.
-/

namespace MMSim

/-- Event record (fields as used by `simulation.py`; the class itself lives in
the missing `events` package, modelled from the spec). -/
structure Event where
  type : Nat
  time : Int
  dead_time : Int
  node_id : Nat
  counter : Nat
deriving DecidableEq, Inhabited, Repr

/-- Node profile (`slices/node.py` + spec fields `active`, `assigned`;
`pilot_samples` and `deadline` come from the config lookup). -/
structure Node where
  pilot_samples : Int
  deadline : Int
  active : Bool
  assigned : Bool
deriving DecidableEq, Inhabited, Repr

/-- One trace-sink report: the event, the report time, the success flag
(`event.get_entry(self.time, success)` handed to `trace.write_trace`). -/
abbrev TraceEntry := Event × Int × Bool

/-- Simulation state: `Simulation.__init__` attributes plus the `Stats.stats`
counters the engine mutates. -/
structure SimState where
  time : Int
  no_pilots : Int
  frame_length : Int
  pilot_strategy : String
  urllcQueue : List Event
  mmtcQueue : List Event
  urllcPool : List Node
  mmtcPool : List Node
  frame_counter : Nat
  frame_loops : Nat
  node_pointer : Nat
  no_urllc_arrivals : Nat
  no_mmtc_arrivals : Nat
  no_missed_urllc : Nat
  no_missed_mmtc : Nat
  trace : List TraceEntry
deriving DecidableEq, Inhabited, Repr

/-- Source `Simulation._URLLC_ARRIVAL` -/
def URLLC_ARRIVAL : Nat := 3

/-- Source `Simulation._mMTC_ARRIVAL` -/
def MMTC_ARRIVAL : Nat := 4

/-- Source `slice.get_node(i)`: index into the pool (out of range yields the default
node; claims carry bounds hypotheses where indices matter). -/
def getNode (pool : List Node) (i : Nat) : Node :=
  pool.getD i default

/-- Source `node.active = b` for the node at index `i`. -/
def setActive (pool : List Node) (i : Nat) (b : Bool) : List Node :=
  pool.set i { getNode pool i with active := b }

/-- Source `node.assigned = b` for the node at index `i`. -/
def setAssigned (pool : List Node) (i : Nat) (b : Bool) : List Node :=
  pool.set i { getNode pool i with assigned := b }

/-- Source `key=lambda x: x.dead_time` ascending. -/
def dleAsc (a b : Event) : Prop := a.dead_time ≤ b.dead_time

/-- Source `key=lambda x: x.dead_time, reverse=True` (stable descending). -/
def dleDesc (a b : Event) : Prop := b.dead_time ≤ a.dead_time

instance : DecidableRel dleAsc := fun a b => inferInstanceAs (Decidable (a.dead_time ≤ b.dead_time))

instance : DecidableRel dleDesc := fun a b => inferInstanceAs (Decidable (b.dead_time ≤ a.dead_time))

instance : IsTotal Event dleAsc := ⟨fun a b => le_total a.dead_time b.dead_time⟩

instance : IsTrans Event dleAsc := ⟨fun _ _ _ h1 h2 => le_trans h1 h2⟩

instance : IsTotal Event dleDesc := ⟨fun a b => le_total b.dead_time a.dead_time⟩

instance : IsTrans Event dleDesc := ⟨fun _ _ _ h1 h2 => le_trans h2 h1⟩

/-! ### `utilities/stats.py` -/

/-- Source `Stats` object: the `stats` dictionary has exactly these five keys from
construction on; `statsFile` stands for the private file handle, untouched by
everything but `close`. -/
structure Stats where
  config_no : Nat
  no_urllc_arrivals : Nat
  no_mmtc_arrivals : Nat
  no_missed_urllc : Nat
  no_missed_mmtc : Nat
  statsFile : Nat
deriving DecidableEq, Repr

/-- Source `Stats.clear_stats`: every key of the stats dictionary except
`config_no` is set to 0. -/
def clear_stats (st : Stats) : Stats :=
  { st with
    no_urllc_arrivals := 0
    no_mmtc_arrivals := 0
    no_missed_urllc := 0
    no_missed_mmtc := 0 }

/-! ### Arrival handlers (`__handle_urllc_arrival`, `__handle_mmtc_arrival`)

The push of the node's next arrival onto the event heap is omitted: runs are
quantified over the list of events actually handled. -/

/-- Source `__handle_urllc_arrival`: bump the arrival counter, insert the event at the
front of the URLLC send queue, mark the node active. -/
def handle_urllc_arrival (s : SimState) (e : Event) : SimState :=
  { s with
    no_urllc_arrivals := s.no_urllc_arrivals + 1
    urllcQueue := e :: s.urllcQueue
    urllcPool := setActive s.urllcPool e.node_id true }

/-- Source `__handle_mmtc_arrival`. -/
def handle_mmtc_arrival (s : SimState) (e : Event) : SimState :=
  { s with
    no_mmtc_arrivals := s.no_mmtc_arrivals + 1
    mmtcQueue := e :: s.mmtcQueue
    mmtcPool := setActive s.mmtcPool e.node_id true }

/-! ### Expiry (`__handle_expired_events`) -/

/-- The removal test: `event.dead_time < self.time` (strict). -/
def isExpired (t : Int) (e : Event) : Bool := decide (e.dead_time < t)

/-- Per-removed-event bookkeeping, dispatched on the event's own `type`
exactly as the body of the reversed removal loop does. -/
def expireStep (s : SimState) (e : Event) : SimState :=
  if e.type == URLLC_ARRIVAL then
    { s with
      urllcPool := setActive s.urllcPool e.node_id false
      no_missed_urllc := s.no_missed_urllc + 1
      trace := s.trace ++ [(e, s.time, false)] }
  else if e.type == MMTC_ARRIVAL then
    { s with
      mmtcPool := setActive s.mmtcPool e.node_id false
      no_missed_mmtc := s.no_missed_mmtc + 1
      trace := s.trace ++ [(e, s.time, false)] }
  else s

/-- Source `__handle_expired_events`: for each queue (`'_URLLC'` first, as dict
insertion order), the entries with `dead_time < time` are deleted (in reversed
index order, hence the `reverse`) and booked by `expireStep`. -/
def handle_expired_events (s : SimState) : SimState :=
  let remU := (s.urllcQueue.filter (isExpired s.time)).reverse
  let s1 := remU.foldl expireStep
    { s with urllcQueue := s.urllcQueue.filter (fun e => ! isExpired s.time e) }
  let remM := (s1.mmtcQueue.filter (isExpired s1.time)).reverse
  remM.foldl expireStep
    { s1 with mmtcQueue := s1.mmtcQueue.filter (fun e => ! isExpired s1.time e) }

/-! ### `__fist_come_first_served` (FCFS_FCFS) -/

/-- The FCFS serving loop: iterate a sorted copy, subtract the node's
`pilot_samples`, serve while the running budget stays non-negative, stop (with
the budget left negative) at the first event that does not fit.  Returns the
final budget, the send queue after removals, and the trace. -/
def serveSortedLoop (pool : List Node) (t : Int) :
    List Event → Int → List Event → List TraceEntry →
    Int × List Event × List TraceEntry
  | [], b, q, tr => (b, q, tr)
  | e :: rest, b, q, tr =>
    let b' := b - (getNode pool e.node_id).pilot_samples
    if 0 ≤ b' then
      serveSortedLoop pool t rest b' (q.erase e) (tr ++ [(e, t, true)])
    else (b', q, tr)

/-- Source `__fist_come_first_served`: class A by ascending deadline on a copy; the
mMTC section runs only when the (possibly negative) running budget is
strictly positive. -/
def fist_come_first_served (s : SimState) : SimState :=
  let sortedU := s.urllcQueue.insertionSort dleAsc
  let rU := serveSortedLoop s.urllcPool s.time sortedU s.no_pilots s.urllcQueue s.trace
  let s1 := { s with urllcQueue := rU.2.1, trace := rU.2.2 }
  if 0 < rU.1 then
    let sortedM := s1.mmtcQueue.insertionSort dleAsc
    let rM := serveSortedLoop s.mmtcPool s.time sortedM rU.1 s1.mmtcQueue s1.trace
    { s1 with mmtcQueue := rM.2.1, trace := rM.2.2 }
  else s1

/-! ### `__round_robin_queue_info` (RRQ_RRQ) -/

/-- Inner per-node loop of the RRQ passes: serve that node's filtered events
while the budget stays non-negative; `false` in the result means the `return`
statement fired (aborting the whole pass). -/
def rrqNodeLoop (c : Int) (t : Int) :
    List Event → Int → List Event → List TraceEntry →
    Bool × Int × List Event × List TraceEntry
  | [], b, q, tr => (true, b, q, tr)
  | e :: rest, b, q, tr =>
    let b' := b - c
    if 0 ≤ b' then
      rrqNodeLoop c t rest b' (q.erase e) (tr ++ [(e, t, true)])
    else (false, b', q, tr)

/-- Outer loop of the RRQ passes over pool indices (Python's
`nodes.index(_node)` is the node's own position, by object identity). -/
def rrqPoolLoop (pool : List Node) (t : Int) :
    List Nat → Int → List Event → List TraceEntry →
    Bool × Int × List Event × List TraceEntry
  | [], b, q, tr => (true, b, q, tr)
  | i :: is, b, q, tr =>
    let evs := q.filter (fun e => e.node_id == i)
    let r := rrqNodeLoop (getNode pool i).pilot_samples t evs b q tr
    if r.1 then rrqPoolLoop pool t is r.2.1 r.2.2.1 r.2.2.2
    else r

/-- Source `__round_robin_queue_info`: drain class-A nodes in pool order, aborting
everything on the first unaffordable event; then, if the pass was not aborted
and budget is strictly positive, do the same for class B. -/
def round_robin_queue_info (s : SimState) : SimState :=
  let rU := rrqPoolLoop s.urllcPool s.time (List.range s.urllcPool.length)
    s.no_pilots s.urllcQueue s.trace
  let s1 := { s with urllcQueue := rU.2.2.1, trace := rU.2.2.2 }
  if rU.1 then
    if 0 < rU.2.1 then
      let rM := rrqPoolLoop s.mmtcPool s.time (List.range s.mmtcPool.length)
        rU.2.1 s1.mmtcQueue s1.trace
      { s1 with mmtcQueue := rM.2.2.1, trace := rM.2.2.2 }
    else s1
  else s1

/-! ### `__round_robin_queue_first_come_first_served` (RRQ_FCFS) -/

/-- The mMTC section of RRQ_FCFS and RRN_FCFS iterates
`self.send_queue['_mMTC']` itself (no copy) while calling `remove` on it, so
after every served event the iteration index steps over the next entry: that
entry is kept in the queue unexamined.  Returns the resulting queue and the
new trace entries. -/
def buggyDescLoop (pool : List Node) (t : Int) :
    List Event → Int → List Event × List TraceEntry
  | [], _ => ([], [])
  | e :: rest, b =>
    let b' := b - (getNode pool e.node_id).pilot_samples
    if 0 ≤ b' then
      match rest with
      | [] => ([], [(e, t, true)])
      | f :: rest2 =>
        let p := buggyDescLoop pool t rest2 b'
        (f :: p.1, (e, t, true) :: p.2)
    else (e :: rest, [])

/-- Source `__round_robin_queue_first_come_first_served`: class A exactly as in
RRQ_RRQ; class B by in-place stable descending-deadline sort followed by the
remove-while-iterating loop. -/
def round_robin_queue_first_come_first_served (s : SimState) : SimState :=
  let rU := rrqPoolLoop s.urllcPool s.time (List.range s.urllcPool.length)
    s.no_pilots s.urllcQueue s.trace
  let s1 := { s with urllcQueue := rU.2.2.1, trace := rU.2.2.2 }
  if rU.1 then
    if 0 < rU.2.1 then
      let sortedM := s1.mmtcQueue.insertionSort dleDesc
      let p := buggyDescLoop s.mmtcPool s.time sortedM rU.2.1
      { s1 with mmtcQueue := p.1, trace := s1.trace ++ p.2 }
    else s1
  else s1

/-! ### RRN grant pass and overlap resolution -/

/-- The cursor-reset test of the two RRN policies:
`(frame_counter + 1) % frame_loops == 1`. -/
def rrnResetFires (s : SimState) : Bool :=
  (s.frame_counter + 1) % s.frame_loops == 1

/-- The grant loop of the RRN policies over pool indices
`range(start_ind, len(pool))`: subtract the node's cost; on success mark the
node `assigned` and advance the pointer; on failure restore the cost to the
budget and stop. -/
def grantLoop : List Nat → List Node → Int → Nat → List Node × Int × Nat
  | [], pool, b, ptr => (pool, b, ptr)
  | i :: is, pool, b, ptr =>
    let nd := getNode pool i
    let b' := b - nd.pilot_samples
    if 0 ≤ b' then grantLoop is (setAssigned pool i true) b' (ptr + 1)
    else (pool, b' + nd.pilot_samples, ptr)

/-- Loop body of `__handle_send_queue`: `src` is the fixed
`events_assigend` list, `ov` the `overlapped_event` accumulator. -/
def hsqLoop (src : List Event) : List Event → List Event → SimState → SimState
  | [], _, st => st
  | e :: rest, ov, st =>
    if e ∈ ov then hsqLoop src rest ov st
    else
      let group := src.filter (fun x => x.node_id == e.node_id)
      if group.length == 1 then
        hsqLoop src rest ov
          { st with
            urllcQueue := st.urllcQueue.erase e
            trace := st.trace ++ [(e, st.time, true)]
            urllcPool := setActive st.urllcPool e.node_id false }
      else
        match group.insertionSort dleAsc with
        | [] => hsqLoop src rest ov st
        | w :: _ =>
          hsqLoop src rest (ov ++ group)
            { st with
              urllcPool := setActive st.urllcPool e.node_id true
              urllcQueue := st.urllcQueue.erase w
              trace := st.trace ++ [(w, st.time, true)] }

/-- Source `__handle_send_queue`: only the `'_URLLC'` queue is processed; the
`events_assigend` list is the queue filtered by the nodes' `assigned` flags,
computed once before the loop. -/
def handle_send_queue (s : SimState) : SimState :=
  let assignedEvts := s.urllcQueue.filter
    (fun e => (getNode s.urllcPool e.node_id).assigned)
  hsqLoop assignedEvts assignedEvts [] s

/-- Source `__round_robin_no_queue_info_first_come_first_served` (RRN_FCFS):
advance the superframe counter, maybe reset the cursor, grant class-A nodes
from the cursor, serve class B by the descending-deadline
remove-while-iterating loop, then resolve overlaps. -/
def round_robin_no_queue_info_first_come_first_served (s : SimState) : SimState :=
  let fc := (s.frame_counter + 1) % s.frame_loops
  let ptr0 := if rrnResetFires s then 0 else s.node_pointer
  let g := grantLoop ((List.range s.urllcPool.length).drop ptr0)
    s.urllcPool s.no_pilots ptr0
  let s1 := { s with
    frame_counter := fc
    urllcPool := g.1
    node_pointer := g.2.2 }
  let s2 :=
    if 0 < g.2.1 then
      let sortedM := s1.mmtcQueue.insertionSort dleDesc
      let p := buggyDescLoop s1.mmtcPool s1.time sortedM g.2.1
      { s1 with mmtcQueue := p.1, trace := s1.trace ++ p.2 }
    else s1
  handle_send_queue s2

/-- Inner mMTC loop of `__round_robin_half_queue_info`: the `break` leaves the
inner loop only (and the budget stays decremented), the outer node loop
continues. -/
def rrnHalfMmtcNode (c : Int) (t : Int) :
    List Event → Int → List Event → List TraceEntry →
    Int × List Event × List TraceEntry
  | [], b, q, tr => (b, q, tr)
  | e :: rest, b, q, tr =>
    let b' := b - c
    if 0 ≤ b' then
      rrnHalfMmtcNode c t rest b' (q.erase e) (tr ++ [(e, t, true)])
    else (b', q, tr)

/-- Outer mMTC loop of `__round_robin_half_queue_info` over pool indices. -/
def rrnHalfMmtcPool (pool : List Node) (t : Int) :
    List Nat → Int → List Event → List TraceEntry →
    Int × List Event × List TraceEntry
  | [], b, q, tr => (b, q, tr)
  | i :: is, b, q, tr =>
    let evs := q.filter (fun e => e.node_id == i)
    let r := rrnHalfMmtcNode (getNode pool i).pilot_samples t evs b q tr
    rrnHalfMmtcPool pool t is r.1 r.2.1 r.2.2

/-- Source `__round_robin_half_queue_info` (RRN_RRQ): same grant pass as RRN_FCFS,
class B by per-node queue draining, then overlap resolution. -/
def round_robin_half_queue_info (s : SimState) : SimState :=
  let fc := (s.frame_counter + 1) % s.frame_loops
  let ptr0 := if rrnResetFires s then 0 else s.node_pointer
  let g := grantLoop ((List.range s.urllcPool.length).drop ptr0)
    s.urllcPool s.no_pilots ptr0
  let s1 := { s with
    frame_counter := fc
    urllcPool := g.1
    node_pointer := g.2.2 }
  let s2 :=
    if 0 < g.2.1 then
      let r := rrnHalfMmtcPool s1.mmtcPool s1.time (List.range s1.mmtcPool.length)
        g.2.1 s1.mmtcQueue s1.trace
      { s1 with mmtcQueue := r.2.1, trace := r.2.2 }
    else s1
  handle_send_queue s2

/-! ### Dispatch, departure, construction -/

/-- The keys of `strategy_mapping`. -/
def strategyNames : List String :=
  ["FCFS_FCFS", "RRQ_RRQ", "RRQ_FCFS", "RRN_FCFS", "RRN_RRQ"]

/-- Source `__assign_pilots`: `self.strategy_mapping[self.pilot_strategy]()`; an
unknown key raises (`Except.error`), exactly at this call. -/
def assign_pilots (s : SimState) : Except String SimState :=
  if s.pilot_strategy == "FCFS_FCFS" then .ok (fist_come_first_served s)
  else if s.pilot_strategy == "RRQ_RRQ" then .ok (round_robin_queue_info s)
  else if s.pilot_strategy == "RRQ_FCFS" then .ok (round_robin_queue_first_come_first_served s)
  else if s.pilot_strategy == "RRN_FCFS" then .ok (round_robin_no_queue_info_first_come_first_served s)
  else if s.pilot_strategy == "RRN_RRQ" then .ok (round_robin_half_queue_info s)
  else .error "KeyError"

/-- Source `__handle_departure`: expiry cleanup, then one allocation pass (the
re-armed departure event is external to this model). -/
def handle_departure (s : SimState) : Except String SimState :=
  assign_pilots (handle_expired_events s)

/-- Source `Simulation.__init__`: note that no validation of the strategy name
happens here, and that `__initialize_nodes` bumps each class's arrival counter
once per node.  `frame_loops` is `deadline(node 0) / frame_length` (claims
about it assume the integral ratio the spec requires). -/
def mkSimulation (no_pilots frame_length : Int) (strategy : String)
    (urllcPool mmtcPool : List Node) : SimState :=
  { time := 0
    no_pilots := no_pilots
    frame_length := frame_length
    pilot_strategy := strategy
    urllcQueue := []
    mmtcQueue := []
    urllcPool := urllcPool
    mmtcPool := mmtcPool
    frame_counter := 0
    frame_loops := ((getNode urllcPool 0).deadline / frame_length).toNat
    node_pointer := 0
    no_urllc_arrivals := urllcPool.length
    no_mmtc_arrivals := mmtcPool.length
    no_missed_urllc := 0
    no_missed_mmtc := 0
    trace := [] }

/-! ### Run model

The event heap and the arrival generators are external: a run is the list of
events the engine handles, each `Step` advancing the clock to the event's time
and dispatching as `__handle_event` does. -/

/-- One handled event of a run. -/
inductive Step where
  | arrU (e : Event)
  | arrM (e : Event)
  | frame (t : Int)
deriving DecidableEq, Repr

/-- Dispatch one event (`self.time = next_event.time` then the handler). -/
def applyStep (s : SimState) : Step → Except String SimState
  | .arrU e => .ok (handle_urllc_arrival { s with time := e.time } e)
  | .arrM e => .ok (handle_mmtc_arrival { s with time := e.time } e)
  | .frame t => handle_departure { s with time := t }

/-- The event loop over a given list of handled events. -/
def runSteps : SimState → List Step → Except String SimState
  | s, [] => .ok s
  | s, st :: rest =>
    match applyStep s st with
    | .ok s' => runSteps s' rest
    | .error msg => .error msg

/-- Number of frame-boundary (departure) events in a step list. -/
def countFrames (steps : List Step) : Nat :=
  steps.countP (fun st => match st with | .frame _ => true | _ => false)

/-- Projection of a dispatch result onto its success value. -/
def exceptOk : Except String SimState → Option SimState
  | .ok s => some s
  | .error _ => none

/-- Projection of a dispatch result onto its error message. -/
def exceptErr : Except String SimState → Option String
  | .ok _ => none
  | .error msg => some msg

/-- Resource cost of a served request: the owning node's `pilot_samples`,
looked up in the pool of the event's class. -/
def eventCost (s : SimState) (e : Event) : Int :=
  if e.type == URLLC_ARRIVAL then (getNode s.urllcPool e.node_id).pilot_samples
  else (getNode s.mmtcPool e.node_id).pilot_samples

/-- Total cost of the successfully served requests among some trace entries. -/
def servedCost (s : SimState) (tr : List TraceEntry) : Int :=
  (tr.filter (fun p => p.2.2)).foldl (fun acc p => acc + eventCost s p.1) 0

/-! ### Helper notions used by the theorems -/

/-- Total `pilot_samples` cost of a list of events against one pool. -/
def costSum (pool : List Node) (l : List Event) : Int :=
  (l.map (fun e => (getNode pool e.node_id).pilot_samples)).sum

/-- Sequential `list.remove` of each event of `l` from `q`. -/
def removeEvents (q : List Event) (l : List Event) : List Event :=
  l.foldl List.erase q

/-! ### Concrete run fragments used by the claim theorems -/

/-- Class-A node of Scenario B: cost 2. -/
def c9nA : Node := { pilot_samples := 2, deadline := 10, active := true, assigned := false }

/-- Class-B node of Scenario B: cost 2. -/
def c9nB : Node := { pilot_samples := 2, deadline := 100, active := true, assigned := false }

/-- First queued request of class-A node 0. -/
def c9a1 : Event := { type := 3, time := 0, dead_time := 10, node_id := 0, counter := 1 }

/-- Second queued request of class-A node 0. -/
def c9a2 : Event := { type := 3, time := 0, dead_time := 11, node_id := 0, counter := 2 }

/-- Queued request of class-A node 1. -/
def c9b1 : Event := { type := 3, time := 0, dead_time := 12, node_id := 1, counter := 3 }

/-- Queued class-B request (present to witness that class B is not reached). -/
def c9m1 : Event := { type := 4, time := 0, dead_time := 200, node_id := 0, counter := 4 }

/-- Scenario B state: budget 4, class-A node 0 holds two requests of cost 2,
node 1 holds one request of cost 2. -/
def c9state : SimState :=
  { time := 1
    no_pilots := 4
    frame_length := 1
    pilot_strategy := "RRQ_RRQ"
    urllcQueue := [c9a1, c9a2, c9b1]
    mmtcQueue := [c9m1]
    urllcPool := [c9nA, c9nA]
    mmtcPool := [c9nB]
    frame_counter := 0
    frame_loops := 10
    node_pointer := 0
    no_urllc_arrivals := 3
    no_mmtc_arrivals := 1
    no_missed_urllc := 0
    no_missed_mmtc := 0
    trace := [] }

/-- Class-B node of cost 1 for the C3 run. -/
def c3nB : Node := { pilot_samples := 1, deadline := 100, active := true, assigned := false }

/-- Class-B request, deadline 3 (served first in descending order). -/
def c3m1 : Event := { type := 4, time := 0, dead_time := 3, node_id := 0, counter := 1 }

/-- Class-B request, deadline 2 (skipped by the remove-while-iterating loop). -/
def c3m2 : Event := { type := 4, time := 0, dead_time := 2, node_id := 0, counter := 2 }

/-- Class-B request, deadline 1 (served second). -/
def c3m3 : Event := { type := 4, time := 0, dead_time := 1, node_id := 0, counter := 3 }

/-- C3 state: RRQ_FCFS, empty class-A pool, budget 3, three queued class-B
requests of cost 1 with deadlines 3, 2, 1. -/
def c3state : SimState :=
  { time := 1
    no_pilots := 3
    frame_length := 1
    pilot_strategy := "RRQ_FCFS"
    urllcQueue := []
    mmtcQueue := [c3m1, c3m2, c3m3]
    urllcPool := []
    mmtcPool := [c3nB]
    frame_counter := 0
    frame_loops := 10
    node_pointer := 0
    no_urllc_arrivals := 0
    no_mmtc_arrivals := 3
    no_missed_urllc := 0
    no_missed_mmtc := 0
    trace := [] }

/-- Class-A node for the C8 run: cost 2, deadline 100. -/
def c8nA : Node := { pilot_samples := 2, deadline := 100, active := true, assigned := false }

/-- Queued class-A request of node 0. -/
def c8e1 : Event := { type := 3, time := 5, dead_time := 105, node_id := 0, counter := 2 }

/-- C8 state: RRN_FCFS, budget 2, node 0 unassigned with one queued request. -/
def c8state : SimState :=
  { time := 10
    no_pilots := 2
    frame_length := 10
    pilot_strategy := "RRN_FCFS"
    urllcQueue := [c8e1]
    mmtcQueue := []
    urllcPool := [c8nA]
    mmtcPool := []
    frame_counter := 0
    frame_loops := 10
    node_pointer := 0
    no_urllc_arrivals := 2
    no_mmtc_arrivals := 0
    no_missed_urllc := 0
    no_missed_mmtc := 0
    trace := [] }

/-- Class-A node: cost 2, deadline 100. -/
def c1nA : Node := { pilot_samples := 2, deadline := 100, active := false, assigned := false }

/-- Class-B node: cost 2, deadline 1000. -/
def c1nB : Node := { pilot_samples := 2, deadline := 1000, active := false, assigned := false }

/-- First class-A arrival (frame 1). -/
def c1e1 : Event := { type := 3, time := 5, dead_time := 105, node_id := 0, counter := 2 }

/-- Class-B arrival (queued through frame 1, served frame 2). -/
def c1m1 : Event := { type := 4, time := 6, dead_time := 1006, node_id := 0, counter := 2 }

/-- Second class-A arrival (frame 2). -/
def c1e2 : Event := { type := 3, time := 15, dead_time := 115, node_id := 0, counter := 3 }

/-- Initial state: budget 2 per frame, frame length 10, RRN_FCFS. -/
def c1s0 : SimState := mkSimulation 2 10 "RRN_FCFS" [c1nA] [c1nB]

/-- State just before the frame-2 allocation pass: frame 1 granted node 0 and
served `c1e1`; `c1m1` is still queued; `c1e2` arrived; clock at 20. -/
def c1spre : SimState :=
  handle_expired_events
    { (handle_urllc_arrival
        (round_robin_no_queue_info_first_come_first_served
          (handle_expired_events
            { (handle_mmtc_arrival (handle_urllc_arrival
                { c1s0 with time := c1e1.time } c1e1) c1m1) with time := 10 }))
        c1e2) with time := 20 }

/-- The frame-2 allocation pass. -/
def c1spost : SimState := round_robin_no_queue_info_first_come_first_served c1spre

/-- Class-A node of cost 3. -/
def c2nA : Node := { pilot_samples := 3, deadline := 10, active := true, assigned := false }

/-- Class-B node of cost 1. -/
def c2nB : Node := { pilot_samples := 1, deadline := 100, active := true, assigned := false }

/-- Class-A request served first (deadline 1). -/
def c2e1 : Event := { type := 3, time := 0, dead_time := 1, node_id := 0, counter := 1 }

/-- Class-A request that fails (deadline 2, cost 3 against remaining 2). -/
def c2e2 : Event := { type := 3, time := 0, dead_time := 2, node_id := 1, counter := 2 }

/-- Class-B request of cost 1 that would fit the arithmetic leftover 2. -/
def c2m1 : Event := { type := 4, time := 0, dead_time := 9, node_id := 0, counter := 3 }

/-- C2 state: FCFS_FCFS, budget 5, two class-A requests of cost 3,
one class-B request of cost 1. -/
def c2state : SimState :=
  { time := 0
    no_pilots := 5
    frame_length := 1
    pilot_strategy := "FCFS_FCFS"
    urllcQueue := [c2e1, c2e2]
    mmtcQueue := [c2m1]
    urllcPool := [c2nA, c2nA]
    mmtcPool := [c2nB]
    frame_counter := 0
    frame_loops := 10
    node_pointer := 0
    no_urllc_arrivals := 2
    no_mmtc_arrivals := 1
    no_missed_urllc := 0
    no_missed_mmtc := 0
    trace := [] }

/-- A node for the C6 run. -/
def c6nA : Node := { pilot_samples := 1, deadline := 100, active := false, assigned := false }

/-- The arrival handled before the first frame boundary. -/
def c6e1 : Event := { type := 3, time := 5, dead_time := 105, node_id := 0, counter := 2 }

/-- Construction with an unrecognized strategy name: it succeeds. -/
def c6s0 : SimState := mkSimulation 4 10 "NOT_A_STRATEGY" [c6nA] [c6nA]

/-- Class-A node with `deadline / frame_length = 1`. -/
def c7nA : Node := { pilot_samples := 1, deadline := 10, active := false, assigned := false }

/-- Initial state with superframe ratio 1 (deadline 10, frame length 10). -/
def c7s0 : SimState := mkSimulation 5 10 "RRN_FCFS" [c7nA] []

/-- Class-B node for Scenario C (deadline span 5). -/
def c5nB : Node := { pilot_samples := 1, deadline := 5, active := true, assigned := false }

/-- The class-B request with deadline 5, still queued at the time-6 boundary. -/
def c5m1 : Event := { type := 4, time := 0, dead_time := 5, node_id := 0, counter := 1 }

/-- Scenario C state: clock has reached the frame boundary at time 6. -/
def c5state : SimState :=
  { time := 6
    no_pilots := 5
    frame_length := 3
    pilot_strategy := "FCFS_FCFS"
    urllcQueue := []
    mmtcQueue := [c5m1]
    urllcPool := []
    mmtcPool := [c5nB]
    frame_counter := 0
    frame_loops := 10
    node_pointer := 0
    no_urllc_arrivals := 0
    no_mmtc_arrivals := 1
    no_missed_urllc := 0
    no_missed_mmtc := 0
    trace := [] }

/-- Assigned class-A node for the C4 witness (Scenario D). -/
def c4nA : Node := { pilot_samples := 1, deadline := 10, active := true, assigned := true }

/-- First pending request of node 0, deadline 12. -/
def c4e1 : Event := { type := 3, time := 0, dead_time := 12, node_id := 0, counter := 1 }

/-- Second pending request of node 0, deadline 9 (the earliest). -/
def c4e2 : Event := { type := 3, time := 0, dead_time := 9, node_id := 0, counter := 2 }

/-- Scenario D state: node 0 is assigned and has two live pending requests. -/
def c4state : SimState :=
  { time := 4
    no_pilots := 2
    frame_length := 1
    pilot_strategy := "RRN_FCFS"
    urllcQueue := [c4e1, c4e2]
    mmtcQueue := []
    urllcPool := [c4nA]
    mmtcPool := []
    frame_counter := 1
    frame_loops := 10
    node_pointer := 1
    no_urllc_arrivals := 2
    no_mmtc_arrivals := 0
    no_missed_urllc := 0
    no_missed_mmtc := 0
    trace := [] }

/-- Class-A node with `deadline / frame_length = 2` for the C7 witness. -/
def c7nA2 : Node := { pilot_samples := 1, deadline := 20, active := false, assigned := false }

/-- Initial state with superframe ratio 2. -/
def c7s2 : SimState := mkSimulation 5 10 "RRN_FCFS" [c7nA2] []

/-- The node-major serving order of the RRQ passes: pool indices in order,
and within each node its queued events in queue order. -/
def nodeMajor (q : List Event) : List Nat → List Event
  | [] => []
  | i :: is => q.filter (fun e => e.node_id == i) ++ nodeMajor q is

/-- Class-A node (cost 2) for the C9 witness run that reaches class B. -/
def c9dnA : Node := { pilot_samples := 2, deadline := 10, active := true, assigned := false }

/-- Class-B node (cost 1) for the C9 witness run. -/
def c9dnB : Node := { pilot_samples := 1, deadline := 100, active := true, assigned := false }

/-- The single class-A request of the C9 witness run. -/
def c9da1 : Event := { type := 3, time := 0, dead_time := 10, node_id := 0, counter := 11 }

/-- Class-B request of node 0 in the C9 witness run. -/
def c9dm1 : Event := { type := 4, time := 0, dead_time := 50, node_id := 0, counter := 12 }

/-- Class-B request of node 1 in the C9 witness run. -/
def c9dm2 : Event := { type := 4, time := 0, dead_time := 60, node_id := 1, counter := 13 }

/-- C9 witness state where class A drains fully with leftover 3, so the
class-B pass runs and serves both class-B nodes in pool order. -/
def c9dstate : SimState :=
  { time := 2
    no_pilots := 5
    frame_length := 1
    pilot_strategy := "RRQ_RRQ"
    urllcQueue := [c9da1]
    mmtcQueue := [c9dm1, c9dm2]
    urllcPool := [c9dnA]
    mmtcPool := [c9dnB, c9dnB]
    frame_counter := 0
    frame_loops := 10
    node_pointer := 0
    no_urllc_arrivals := 1
    no_mmtc_arrivals := 2
    no_missed_urllc := 0
    no_missed_mmtc := 0
    trace := [] }

theorem costSum_nil (pool : List Node) : costSum pool [] = 0 := rfl

theorem costSum_cons (pool : List Node) (e : Event) (l : List Event) :
    costSum pool (e :: l) = (getNode pool e.node_id).pilot_samples + costSum pool l := by
  simp [costSum]

theorem removeEvents_nil (q : List Event) : removeEvents q [] = q := rfl

theorem removeEvents_cons (q : List Event) (e : Event) (l : List Event) :
    removeEvents q (e :: l) = removeEvents (q.erase e) l := rfl

theorem length_setActive (pool : List Node) (i : Nat) (b : Bool) :
    (setActive pool i b).length = pool.length := by
  simp [setActive]

theorem getNode_setActive_ne (pool : List Node) (i j : Nat) (b : Bool) (h : i ≠ j) :
    getNode (setActive pool i b) j = getNode pool j := by
  unfold setActive getNode
  simp [List.getD_eq_getElem?_getD, List.getElem?_set_ne h]

theorem getNode_setActive_self (pool : List Node) (i : Nat) (b : Bool)
    (h : i < pool.length) :
    getNode (setActive pool i b) i = { getNode pool i with active := b } := by
  unfold setActive getNode
  rw [List.getD_eq_getElem?_getD, List.getElem?_set_eq_of_lt _ h, Option.getD_some]

end MMSim

namespace MMSim

/-- Characterization of the FCFS serving loop: it serves a maximal affordable
prefix `pre` of its (sorted) input, removing exactly those events from the
queue and reporting each with success; if a suffix is left, its head made the
budget negative and the loop stopped there with the budget left negative. -/
theorem serveSortedLoop_spec (pool : List Node) (t : Int) :
    ∀ (l : List Event) (b : Int) (q : List Event) (tr : List TraceEntry), 0 ≤ b →
    ∃ pre post, l = pre ++ post ∧
      (serveSortedLoop pool t l b q tr).2.1 = removeEvents q pre ∧
      (serveSortedLoop pool t l b q tr).2.2 = tr ++ pre.map (fun e => (e, t, true)) ∧
      0 ≤ b - costSum pool pre ∧
      ((post = [] ∧ (serveSortedLoop pool t l b q tr).1 = b - costSum pool pre) ∨
       (∃ e post', post = e :: post' ∧
          (serveSortedLoop pool t l b q tr).1 =
            b - costSum pool pre - (getNode pool e.node_id).pilot_samples ∧
          (serveSortedLoop pool t l b q tr).1 < 0)) := by
  intro l
  induction l with
  | nil =>
    intro b q tr hb
    exact ⟨[], [], by simp [removeEvents_nil], by simp [serveSortedLoop, removeEvents_nil],
      by simp [serveSortedLoop], by simpa [costSum_nil] using hb,
      Or.inl ⟨rfl, by simp [serveSortedLoop, costSum_nil]⟩⟩
  | cons e rest ih =>
    intro b q tr hb
    by_cases h : 0 ≤ b - (getNode pool e.node_id).pilot_samples
    · obtain ⟨pre', post', hsplit, hq, htr, hcost, hcase⟩ :=
        ih (b - (getNode pool e.node_id).pilot_samples) (q.erase e) (tr ++ [(e, t, true)]) h
      have hstep : serveSortedLoop pool t (e :: rest) b q tr =
          serveSortedLoop pool t rest (b - (getNode pool e.node_id).pilot_samples)
            (q.erase e) (tr ++ [(e, t, true)]) := by
        simp only [serveSortedLoop]
        rw [if_pos h]
      refine ⟨e :: pre', post', by simpa using hsplit, ?_, ?_, ?_, ?_⟩
      · rw [hstep, removeEvents_cons]
        exact hq
      · rw [hstep, htr]
        simp
      · rw [costSum_cons]
        omega
      · rcases hcase with ⟨hpost, hbud⟩ | ⟨f, post2, hpost, hbud, hneg⟩
        · refine Or.inl ⟨hpost, ?_⟩
          rw [hstep, hbud, costSum_cons]
          ring
        · refine Or.inr ⟨f, post2, hpost, ?_, ?_⟩
          · rw [hstep, hbud, costSum_cons]
            ring
          · rw [hstep]
            exact hneg
    · have hstep : serveSortedLoop pool t (e :: rest) b q tr =
          (b - (getNode pool e.node_id).pilot_samples, q, tr) := by
        simp only [serveSortedLoop]
        rw [if_neg h]
      refine ⟨[], e :: rest, by simp, ?_, ?_, ?_, ?_⟩
      · rw [hstep, removeEvents_nil]
      · rw [hstep]
        simp
      · simpa [costSum_nil] using hb
      · refine Or.inr ⟨e, rest, rfl, ?_, ?_⟩
        · rw [hstep, costSum_nil]
          ring
        · rw [hstep]
          omega

theorem filter_erase_of_pos {p : Event → Bool} {w : Event} (hw : p w = true) :
    ∀ q : List Event, (q.erase w).filter p = (q.filter p).erase w := by
  intro q
  induction q with
  | nil => simp
  | cons a q ih =>
    by_cases haw : a = w
    · subst haw
      rw [List.erase_cons_head, List.filter_cons_of_pos hw, List.erase_cons_head]
    · have hbeq : ¬ (a == w) = true := by simpa using haw
      rw [List.erase_cons_tail hbeq]
      by_cases hpa : p a = true
      · rw [List.filter_cons_of_pos hpa, List.filter_cons_of_pos hpa,
          List.erase_cons_tail hbeq, ih]
      · rw [List.filter_cons_of_neg (by simpa using hpa),
          List.filter_cons_of_neg (by simpa using hpa), ih]

theorem filter_erase_of_neg {p : Event → Bool} {w : Event} (hw : p w = false) :
    ∀ q : List Event, (q.erase w).filter p = q.filter p := by
  intro q
  induction q with
  | nil => simp
  | cons a q ih =>
    by_cases haw : a = w
    · subst haw
      rw [List.erase_cons_head, List.filter_cons_of_neg (by simp [hw])]
    · have hbeq : ¬ (a == w) = true := by simpa using haw
      rw [List.erase_cons_tail hbeq]
      by_cases hpa : p a = true
      · rw [List.filter_cons_of_pos hpa, List.filter_cons_of_pos hpa, ih]
      · rw [List.filter_cons_of_neg (by simpa using hpa),
          List.filter_cons_of_neg (by simpa using hpa), ih]

/-- The head of the stable ascending sort of a nonempty group is a member
that minimizes `dead_time`. -/
theorem insertionSort_head_min (G : List Event) (w : Event) (ws : List Event)
    (h : G.insertionSort dleAsc = w :: ws) :
    w ∈ G ∧ ∀ x ∈ G, w.dead_time ≤ x.dead_time := by
  have hperm := List.perm_insertionSort dleAsc G
  have hsorted := List.sorted_insertionSort dleAsc G
  rw [h] at hperm hsorted
  have hmem : w ∈ G := hperm.mem_iff.1 (List.mem_cons_self w ws)
  refine ⟨hmem, ?_⟩
  intro x hx
  have hx' : x ∈ w :: ws := hperm.mem_iff.2 hx
  rcases List.mem_cons.1 hx' with rfl | hx2
  · exact le_refl _
  · exact (List.sorted_cons.1 hsorted).1 x hx2

/-- If every remaining event of node `n` is already in the `overlapped_event`
accumulator, the rest of the `__handle_send_queue` loop does not touch node
`n`'s queue entries, trace entries, or node record. -/
theorem hsqLoop_untouched (n : Nat) (src : List Event) :
    ∀ (l ov : List Event) (st : SimState),
      (∀ x ∈ l, x.node_id = n → x ∈ ov) →
      (hsqLoop src l ov st).urllcQueue.filter (fun x => x.node_id == n)
          = st.urllcQueue.filter (fun x => x.node_id == n) ∧
      (hsqLoop src l ov st).trace.filter (fun p => p.1.node_id == n)
          = st.trace.filter (fun p => p.1.node_id == n) ∧
      getNode (hsqLoop src l ov st).urllcPool n = getNode st.urllcPool n ∧
      (hsqLoop src l ov st).urllcPool.length = st.urllcPool.length ∧
      (hsqLoop src l ov st).time = st.time := by
  intro l
  induction l with
  | nil =>
    intro ov st _
    exact ⟨rfl, rfl, rfl, rfl, rfl⟩
  | cons e rest ih =>
    intro ov st hinv
    by_cases hov : e ∈ ov
    · have hstep : hsqLoop src (e :: rest) ov st = hsqLoop src rest ov st := by
        simp only [hsqLoop]
        rw [if_pos hov]
      rw [hstep]
      exact ih ov st (fun x hx => hinv x (List.mem_cons_of_mem e hx))
    · have hen : e.node_id ≠ n := fun h => hov (hinv e (List.mem_cons_self e rest) h)
      have henb : (e.node_id == n) = false := by simpa using hen
      by_cases hg1 : ((src.filter (fun x => x.node_id == e.node_id)).length == 1) = true
      · have hstep : hsqLoop src (e :: rest) ov st = hsqLoop src rest ov
            { st with
              urllcQueue := st.urllcQueue.erase e
              trace := st.trace ++ [(e, st.time, true)]
              urllcPool := setActive st.urllcPool e.node_id false } := by
          simp only [hsqLoop]
          rw [if_neg hov, if_pos hg1]
        rw [hstep]
        obtain ⟨ihq, ihtr, ihn, ihlen, iht⟩ := ih ov
          { st with
            urllcQueue := st.urllcQueue.erase e
            trace := st.trace ++ [(e, st.time, true)]
            urllcPool := setActive st.urllcPool e.node_id false }
          (fun x hx => hinv x (List.mem_cons_of_mem e hx))
        refine ⟨?_, ?_, ?_, ?_, ?_⟩
        · rw [ihq]
          exact filter_erase_of_neg henb st.urllcQueue
        · rw [ihtr]
          simp [List.filter_append, henb]
        · rw [ihn]
          exact getNode_setActive_ne st.urllcPool e.node_id n false hen
        · rw [ihlen]
          exact length_setActive st.urllcPool e.node_id false
        · exact iht
      · rcases hsorted : (src.filter (fun x => x.node_id == e.node_id)).insertionSort dleAsc
          with _ | ⟨w, ws⟩
        · have hstep : hsqLoop src (e :: rest) ov st = hsqLoop src rest ov st := by
            simp only [hsqLoop]
            rw [if_neg hov, if_neg hg1, hsorted]
          rw [hstep]
          exact ih ov st (fun x hx => hinv x (List.mem_cons_of_mem e hx))
        · have hwmem : w ∈ src.filter (fun x => x.node_id == e.node_id) :=
            (insertionSort_head_min _ w ws hsorted).1
          have hwn : w.node_id ≠ n := by
            have := (List.mem_filter.1 hwmem).2
            have hwe : w.node_id = e.node_id := by simpa using this
            rw [hwe]
            exact hen
          have hwnb : (w.node_id == n) = false := by simpa using hwn
          have hstep : hsqLoop src (e :: rest) ov st =
              hsqLoop src rest (ov ++ src.filter (fun x => x.node_id == e.node_id))
                { st with
                  urllcPool := setActive st.urllcPool e.node_id true
                  urllcQueue := st.urllcQueue.erase w
                  trace := st.trace ++ [(w, st.time, true)] } := by
            simp only [hsqLoop]
            rw [if_neg hov, if_neg hg1, hsorted]
          rw [hstep]
          obtain ⟨ihq, ihtr, ihn, ihlen, iht⟩ := ih
            (ov ++ src.filter (fun x => x.node_id == e.node_id))
            { st with
              urllcPool := setActive st.urllcPool e.node_id true
              urllcQueue := st.urllcQueue.erase w
              trace := st.trace ++ [(w, st.time, true)] }
            (fun x hx hxn =>
              List.mem_append_left _ (hinv x (List.mem_cons_of_mem e hx) hxn))
          refine ⟨?_, ?_, ?_, ?_, ?_⟩
          · rw [ihq]
            exact filter_erase_of_neg hwnb st.urllcQueue
          · rw [ihtr]
            simp [List.filter_append, hwnb]
          · rw [ihn]
            exact getNode_setActive_ne st.urllcPool e.node_id n true hen
          · rw [ihlen]
            exact length_setActive st.urllcPool e.node_id true
          · exact iht

/-- Main loop lemma for `__handle_send_queue`: if node `n`'s events are not
yet covered by the accumulator and at least one is still ahead in the loop,
then exactly one of node `n`'s events in `src` is served — one minimizing
`dead_time` — it is removed from the queue, reported with success, and the
node's `active` flag ends up `false` when the node had exactly one event in
`src` and `true` otherwise. -/
theorem hsqLoop_main (n : Nat) (src : List Event) (hsrcnodup : src.Nodup) :
    ∀ (l ov : List Event) (st : SimState),
      l.Sublist src →
      (∀ x ∈ ov, x.node_id ≠ n) →
      (∃ e ∈ l, e.node_id = n) →
      n < st.urllcPool.length →
      ∃ w, w ∈ src.filter (fun x => x.node_id == n) ∧
        (∀ x ∈ src.filter (fun x => x.node_id == n), w.dead_time ≤ x.dead_time) ∧
        (hsqLoop src l ov st).urllcQueue.filter (fun x => x.node_id == n)
            = (st.urllcQueue.filter (fun x => x.node_id == n)).erase w ∧
        (hsqLoop src l ov st).trace.filter (fun p => p.1.node_id == n)
            = st.trace.filter (fun p => p.1.node_id == n) ++ [(w, st.time, true)] ∧
        ((src.filter (fun x => x.node_id == n)).length = 1 →
          getNode (hsqLoop src l ov st).urllcPool n
            = { getNode st.urllcPool n with active := false }) ∧
        ((src.filter (fun x => x.node_id == n)).length ≠ 1 →
          getNode (hsqLoop src l ov st).urllcPool n
            = { getNode st.urllcPool n with active := true }) := by
  intro l
  induction l with
  | nil =>
    intro ov st _ _ hex _
    simp at hex
  | cons e rest ih =>
    intro ov st hsub hov hex hlt
    have hsubrest : rest.Sublist src := (List.sublist_cons_self e rest).trans hsub
    by_cases hov' : e ∈ ov
    · have hen : e.node_id ≠ n := hov e hov'
      have hex' : ∃ f ∈ rest, f.node_id = n := by
        obtain ⟨f, hf, hfn⟩ := hex
        rcases List.mem_cons.1 hf with rfl | hf2
        · exact absurd hfn hen
        · exact ⟨f, hf2, hfn⟩
      have hstep : hsqLoop src (e :: rest) ov st = hsqLoop src rest ov st := by
        simp only [hsqLoop]
        rw [if_pos hov']
      rw [hstep]
      exact ih ov st hsubrest hov hex' hlt
    · by_cases henn : e.node_id = n
      · -- the first still-uncovered event of node n drives the group
        have hGeq : src.filter (fun x => x.node_id == e.node_id)
            = src.filter (fun x => x.node_id == n) := by
          rw [henn]
        have heG : e ∈ src.filter (fun x => x.node_id == n) :=
          List.mem_filter.2 ⟨hsub.subset (List.mem_cons_self e rest), by simp [henn]⟩
        have henb : (e.node_id == n) = true := by simp [henn]
        have hnodupl : (e :: rest).Nodup := List.Nodup.sublist hsub hsrcnodup
        have henotrest : e ∉ rest := (List.nodup_cons.1 hnodupl).1
        by_cases hg1 : ((src.filter (fun x => x.node_id == e.node_id)).length == 1) = true
        · -- node n holds exactly one event in src: serve it, clear active
          have hlen1 : (src.filter (fun x => x.node_id == n)).length = 1 := by
            rw [← hGeq]
            simpa using hg1
          obtain ⟨a, ha⟩ := List.length_eq_one.1 hlen1
          have hae : a = e := by
            rw [ha] at heG
            have : e = a := by simpa using heG
            exact this.symm
          have hstep : hsqLoop src (e :: rest) ov st = hsqLoop src rest ov
              { st with
                urllcQueue := st.urllcQueue.erase e
                trace := st.trace ++ [(e, st.time, true)]
                urllcPool := setActive st.urllcPool e.node_id false } := by
            simp only [hsqLoop]
            rw [if_neg hov', if_pos hg1]
          have hinv' : ∀ x ∈ rest, x.node_id = n → x ∈ ov := by
            intro x hx hxn
            have hxG : x ∈ src.filter (fun y => y.node_id == n) :=
              List.mem_filter.2 ⟨hsubrest.subset hx, by simp [hxn]⟩
            rw [ha, hae] at hxG
            have : x = e := by simpa using hxG
            exact absurd (this ▸ hx) henotrest
          obtain ⟨uq, utr, un, _, _⟩ := hsqLoop_untouched n src rest ov
            { st with
              urllcQueue := st.urllcQueue.erase e
              trace := st.trace ++ [(e, st.time, true)]
              urllcPool := setActive st.urllcPool e.node_id false } hinv'
          rw [hstep]
          refine ⟨e, heG, ?_, ?_, ?_, ?_, ?_⟩
          · intro x hx
            rw [ha, hae] at hx
            have : x = e := by simpa using hx
            rw [this]
          · rw [uq]
            exact filter_erase_of_pos henb st.urllcQueue
          · rw [utr]
            simp [List.filter_append, henb]
          · intro _
            rw [un]
            have : getNode (setActive st.urllcPool e.node_id false) n
                = { getNode st.urllcPool n with active := false } := by
              rw [henn]
              exact getNode_setActive_self st.urllcPool n false hlt
            exact this
          · intro hcon
            exact absurd hlen1 hcon
        · -- node n holds several events in src: serve the earliest deadline
          have hlen1 : (src.filter (fun x => x.node_id == n)).length ≠ 1 := by
            rw [← hGeq]
            simpa using hg1
          rcases hsorted : (src.filter (fun x => x.node_id == e.node_id)).insertionSort dleAsc
            with _ | ⟨w, ws⟩
          · exfalso
            have hperm := List.perm_insertionSort dleAsc
              (src.filter (fun x => x.node_id == e.node_id))
            rw [hsorted] at hperm
            have : src.filter (fun x => x.node_id == e.node_id) = [] :=
              List.Perm.eq_nil hperm.symm
            rw [hGeq] at this
            rw [this] at heG
            simp at heG
          · obtain ⟨hwmem0, hwmin0⟩ := insertionSort_head_min _ w ws hsorted
            rw [hGeq] at hwmem0 hwmin0
            have hwn : w.node_id = n := by simpa using (List.mem_filter.1 hwmem0).2
            have hwnb : (w.node_id == n) = true := by simp [hwn]
            have hstep : hsqLoop src (e :: rest) ov st =
                hsqLoop src rest (ov ++ src.filter (fun x => x.node_id == e.node_id))
                  { st with
                    urllcPool := setActive st.urllcPool e.node_id true
                    urllcQueue := st.urllcQueue.erase w
                    trace := st.trace ++ [(w, st.time, true)] } := by
              simp only [hsqLoop]
              rw [if_neg hov', if_neg hg1, hsorted]
            have hinv' : ∀ x ∈ rest, x.node_id = n →
                x ∈ ov ++ src.filter (fun x => x.node_id == e.node_id) := by
              intro x hx hxn
              refine List.mem_append_right ov ?_
              rw [hGeq]
              exact List.mem_filter.2 ⟨hsubrest.subset hx, by simp [hxn]⟩
            obtain ⟨uq, utr, un, _, _⟩ := hsqLoop_untouched n src rest
              (ov ++ src.filter (fun x => x.node_id == e.node_id))
              { st with
                urllcPool := setActive st.urllcPool e.node_id true
                urllcQueue := st.urllcQueue.erase w
                trace := st.trace ++ [(w, st.time, true)] } hinv'
            rw [hstep]
            refine ⟨w, hwmem0, hwmin0, ?_, ?_, ?_, ?_⟩
            · rw [uq]
              exact filter_erase_of_pos hwnb st.urllcQueue
            · rw [utr]
              simp [List.filter_append, hwnb]
            · intro hcon
              exact absurd hcon hlen1
            · intro _
              rw [un]
              have : getNode (setActive st.urllcPool e.node_id true) n
                  = { getNode st.urllcPool n with active := true } := by
                rw [henn]
                exact getNode_setActive_self st.urllcPool n true hlt
              exact this
      · -- an event of a different node is processed first
        have henb : (e.node_id == n) = false := by simpa using henn
        have hex' : ∃ f ∈ rest, f.node_id = n := by
          obtain ⟨f, hf, hfn⟩ := hex
          rcases List.mem_cons.1 hf with rfl | hf2
          · exact absurd hfn henn
          · exact ⟨f, hf2, hfn⟩
        by_cases hg1 : ((src.filter (fun x => x.node_id == e.node_id)).length == 1) = true
        · have hstep : hsqLoop src (e :: rest) ov st = hsqLoop src rest ov
              { st with
                urllcQueue := st.urllcQueue.erase e
                trace := st.trace ++ [(e, st.time, true)]
                urllcPool := setActive st.urllcPool e.node_id false } := by
            simp only [hsqLoop]
            rw [if_neg hov', if_pos hg1]
          have hlt' : n < (setActive st.urllcPool e.node_id false).length := by
            rw [length_setActive]
            exact hlt
          obtain ⟨w, hwmem, hwmin, ihq, ihtr, ih1, ih2⟩ := ih ov
            { st with
              urllcQueue := st.urllcQueue.erase e
              trace := st.trace ++ [(e, st.time, true)]
              urllcPool := setActive st.urllcPool e.node_id false }
            hsubrest hov hex' hlt'
          rw [hstep]
          have hqn : (st.urllcQueue.erase e).filter (fun x => x.node_id == n)
              = st.urllcQueue.filter (fun x => x.node_id == n) :=
            filter_erase_of_neg henb st.urllcQueue
          have htrn : (st.trace ++ [(e, st.time, true)]).filter (fun p => p.1.node_id == n)
              = st.trace.filter (fun p => p.1.node_id == n) := by
            simp [List.filter_append, henb]
          have hgn : getNode (setActive st.urllcPool e.node_id false) n
              = getNode st.urllcPool n :=
            getNode_setActive_ne st.urllcPool e.node_id n false henn
          refine ⟨w, hwmem, hwmin, ?_, ?_, ?_, ?_⟩
          · rw [ihq, hqn]
          · rw [ihtr, htrn]
          · intro hc
            rw [ih1 hc, hgn]
          · intro hc
            rw [ih2 hc, hgn]
        · rcases hsorted : (src.filter (fun x => x.node_id == e.node_id)).insertionSort dleAsc
            with _ | ⟨v, vs⟩
          · have hstep : hsqLoop src (e :: rest) ov st = hsqLoop src rest ov st := by
              simp only [hsqLoop]
              rw [if_neg hov', if_neg hg1, hsorted]
            rw [hstep]
            exact ih ov st hsubrest hov hex' hlt
          · have hvmem : v ∈ src.filter (fun x => x.node_id == e.node_id) :=
              (insertionSort_head_min _ v vs hsorted).1
            have hvn : v.node_id ≠ n := by
              have : v.node_id = e.node_id := by simpa using (List.mem_filter.1 hvmem).2
              rw [this]
              exact henn
            have hvnb : (v.node_id == n) = false := by simpa using hvn
            have hstep : hsqLoop src (e :: rest) ov st =
                hsqLoop src rest (ov ++ src.filter (fun x => x.node_id == e.node_id))
                  { st with
                    urllcPool := setActive st.urllcPool e.node_id true
                    urllcQueue := st.urllcQueue.erase v
                    trace := st.trace ++ [(v, st.time, true)] } := by
              simp only [hsqLoop]
              rw [if_neg hov', if_neg hg1, hsorted]
            have hov2 : ∀ x ∈ ov ++ src.filter (fun x => x.node_id == e.node_id),
                x.node_id ≠ n := by
              intro x hx
              rcases List.mem_append.1 hx with hx1 | hx2
              · exact hov x hx1
              · have : x.node_id = e.node_id := by simpa using (List.mem_filter.1 hx2).2
                rw [this]
                exact henn
            have hlt' : n < (setActive st.urllcPool e.node_id true).length := by
              rw [length_setActive]
              exact hlt
            obtain ⟨w, hwmem, hwmin, ihq, ihtr, ih1, ih2⟩ := ih
              (ov ++ src.filter (fun x => x.node_id == e.node_id))
              { st with
                urllcPool := setActive st.urllcPool e.node_id true
                urllcQueue := st.urllcQueue.erase v
                trace := st.trace ++ [(v, st.time, true)] }
              hsubrest hov2 hex' hlt'
            rw [hstep]
            have hqn : (st.urllcQueue.erase v).filter (fun x => x.node_id == n)
                = st.urllcQueue.filter (fun x => x.node_id == n) :=
              filter_erase_of_neg hvnb st.urllcQueue
            have htrn : (st.trace ++ [(v, st.time, true)]).filter (fun p => p.1.node_id == n)
                = st.trace.filter (fun p => p.1.node_id == n) := by
              simp [List.filter_append, hvnb]
            have hgn : getNode (setActive st.urllcPool e.node_id true) n
                = getNode st.urllcPool n :=
              getNode_setActive_ne st.urllcPool e.node_id n true henn
            refine ⟨w, hwmem, hwmin, ?_, ?_, ?_, ?_⟩
            · rw [ihq, hqn]
            · rw [ihtr, htrn]
            · intro hc
              rw [ih1 hc, hgn]
            · intro hc
              rw [ih2 hc, hgn]

/-- Effect of the reversed removal loop on a batch of expired URLLC-typed
events: counters, trace, and the owning nodes' `active` flags. -/
theorem foldExpire_urllc (rem : List Event) :
    ∀ s : SimState, (∀ e ∈ rem, e.type = URLLC_ARRIVAL) →
      (rem.foldl expireStep s).time = s.time ∧
      (rem.foldl expireStep s).urllcQueue = s.urllcQueue ∧
      (rem.foldl expireStep s).mmtcQueue = s.mmtcQueue ∧
      (rem.foldl expireStep s).mmtcPool = s.mmtcPool ∧
      (rem.foldl expireStep s).no_missed_urllc = s.no_missed_urllc + rem.length ∧
      (rem.foldl expireStep s).no_missed_mmtc = s.no_missed_mmtc ∧
      (rem.foldl expireStep s).trace = s.trace ++ rem.map (fun e => (e, s.time, false)) ∧
      (rem.foldl expireStep s).urllcPool.length = s.urllcPool.length ∧
      (∀ j : Nat,
        ((∃ e ∈ rem, e.node_id = j) → j < s.urllcPool.length →
          (getNode (rem.foldl expireStep s).urllcPool j).active = false) ∧
        ((∀ e ∈ rem, e.node_id ≠ j) →
          getNode (rem.foldl expireStep s).urllcPool j = getNode s.urllcPool j)) := by
  induction rem with
  | nil =>
    intro s _
    refine ⟨rfl, rfl, rfl, rfl, by simp, rfl, by simp, rfl, ?_⟩
    intro j
    exact ⟨fun h _ => absurd h (by simp), fun _ => rfl⟩
  | cons e rest ih =>
    intro s h
    have he : e.type = URLLC_ARRIVAL := h e (List.mem_cons_self e rest)
    have hE : expireStep s e =
        { s with
          urllcPool := setActive s.urllcPool e.node_id false
          no_missed_urllc := s.no_missed_urllc + 1
          trace := s.trace ++ [(e, s.time, false)] } := by
      simp [expireStep, he]
    have hstep : (e :: rest).foldl expireStep s = rest.foldl expireStep (expireStep s e) :=
      List.foldl_cons rest s
    obtain ⟨iht, ihqU, ihqM, ihpM, ihmU, ihmM, ihtr, ihlen, ihnode⟩ :=
      ih (expireStep s e) (fun f hf => h f (List.mem_cons_of_mem e hf))
    rw [hstep]
    refine ⟨by rw [iht, hE], by rw [ihqU, hE], by rw [ihqM, hE], by rw [ihpM, hE],
      ?_, by rw [ihmM, hE], ?_, ?_, ?_⟩
    · rw [ihmU, hE]
      simp
      omega
    · rw [ihtr, hE]
      simp [List.append_assoc]
    · rw [ihlen, hE]
      simp [length_setActive]
    · intro j
      constructor
      · rintro ⟨f, hf, hfj⟩ hlt
        have hlt' : j < (expireStep s e).urllcPool.length := by
          rw [hE]
          simpa [length_setActive] using hlt
        rcases List.mem_cons.1 hf with rfl | hfrest
        · by_cases hrest : ∃ g ∈ rest, g.node_id = j
          · exact (ihnode j).1 hrest hlt'
          · push_neg at hrest
            have hunch := (ihnode j).2 hrest
            rw [hunch, hE]
            have : getNode (setActive s.urllcPool f.node_id false) j =
                { getNode s.urllcPool j with active := false } := by
              rw [hfj] at *
              exact getNode_setActive_self s.urllcPool j false hlt
            simp only []
            rw [this]
        · exact (ihnode j).1 ⟨f, hfrest, hfj⟩ hlt'
      · intro hall
        have hrest : ∀ g ∈ rest, g.node_id ≠ j :=
          fun g hg => hall g (List.mem_cons_of_mem e hg)
        rw [(ihnode j).2 hrest, hE]
        exact getNode_setActive_ne s.urllcPool e.node_id j false
          (hall e (List.mem_cons_self e rest))

/-- Mirror of `foldExpire_urllc` for a batch of expired mMTC-typed events. -/
theorem foldExpire_mmtc (rem : List Event) :
    ∀ s : SimState, (∀ e ∈ rem, e.type = MMTC_ARRIVAL) →
      (rem.foldl expireStep s).time = s.time ∧
      (rem.foldl expireStep s).urllcQueue = s.urllcQueue ∧
      (rem.foldl expireStep s).mmtcQueue = s.mmtcQueue ∧
      (rem.foldl expireStep s).urllcPool = s.urllcPool ∧
      (rem.foldl expireStep s).no_missed_mmtc = s.no_missed_mmtc + rem.length ∧
      (rem.foldl expireStep s).no_missed_urllc = s.no_missed_urllc ∧
      (rem.foldl expireStep s).trace = s.trace ++ rem.map (fun e => (e, s.time, false)) ∧
      (rem.foldl expireStep s).mmtcPool.length = s.mmtcPool.length ∧
      (∀ j : Nat,
        ((∃ e ∈ rem, e.node_id = j) → j < s.mmtcPool.length →
          (getNode (rem.foldl expireStep s).mmtcPool j).active = false) ∧
        ((∀ e ∈ rem, e.node_id ≠ j) →
          getNode (rem.foldl expireStep s).mmtcPool j = getNode s.mmtcPool j)) := by
  induction rem with
  | nil =>
    intro s _
    refine ⟨rfl, rfl, rfl, rfl, by simp, rfl, by simp, rfl, ?_⟩
    intro j
    exact ⟨fun h _ => absurd h (by simp), fun _ => rfl⟩
  | cons e rest ih =>
    intro s h
    have he : e.type = MMTC_ARRIVAL := h e (List.mem_cons_self e rest)
    have hE : expireStep s e =
        { s with
          mmtcPool := setActive s.mmtcPool e.node_id false
          no_missed_mmtc := s.no_missed_mmtc + 1
          trace := s.trace ++ [(e, s.time, false)] } := by
      simp [expireStep, he, URLLC_ARRIVAL, MMTC_ARRIVAL]
    have hstep : (e :: rest).foldl expireStep s = rest.foldl expireStep (expireStep s e) :=
      List.foldl_cons rest s
    obtain ⟨iht, ihqU, ihqM, ihpU, ihmM, ihmU, ihtr, ihlen, ihnode⟩ :=
      ih (expireStep s e) (fun f hf => h f (List.mem_cons_of_mem e hf))
    rw [hstep]
    refine ⟨by rw [iht, hE], by rw [ihqU, hE], by rw [ihqM, hE], by rw [ihpU, hE],
      ?_, by rw [ihmU, hE], ?_, ?_, ?_⟩
    · rw [ihmM, hE]
      simp
      omega
    · rw [ihtr, hE]
      simp [List.append_assoc]
    · rw [ihlen, hE]
      simp [length_setActive]
    · intro j
      constructor
      · rintro ⟨f, hf, hfj⟩ hlt
        have hlt' : j < (expireStep s e).mmtcPool.length := by
          rw [hE]
          simpa [length_setActive] using hlt
        rcases List.mem_cons.1 hf with rfl | hfrest
        · by_cases hrest : ∃ g ∈ rest, g.node_id = j
          · exact (ihnode j).1 hrest hlt'
          · push_neg at hrest
            have hunch := (ihnode j).2 hrest
            rw [hunch, hE]
            have : getNode (setActive s.mmtcPool f.node_id false) j =
                { getNode s.mmtcPool j with active := false } := by
              rw [hfj] at *
              exact getNode_setActive_self s.mmtcPool j false hlt
            simp only []
            rw [this]
        · exact (ihnode j).1 ⟨f, hfrest, hfj⟩ hlt'
      · intro hall
        have hrest : ∀ g ∈ rest, g.node_id ≠ j :=
          fun g hg => hall g (List.mem_cons_of_mem e hg)
        rw [(ihnode j).2 hrest, hE]
        exact getNode_setActive_ne s.mmtcPool e.node_id j false
          (hall e (List.mem_cons_self e rest))

/-- C5: at a frame boundary, `__handle_expired_events` removes exactly the
queue entries whose deadline is strictly before the clock; each removal clears
the owning node's `active` flag, increments the missed counter of the entry's
class by one, and reports one failed outcome to the trace sink. -/
theorem C5_expiry (s : SimState)
    (hU : ∀ e ∈ s.urllcQueue, e.type = URLLC_ARRIVAL)
    (hM : ∀ e ∈ s.mmtcQueue, e.type = MMTC_ARRIVAL)
    (hbU : ∀ e ∈ s.urllcQueue, e.node_id < s.urllcPool.length)
    (hbM : ∀ e ∈ s.mmtcQueue, e.node_id < s.mmtcPool.length) :
    (handle_expired_events s).urllcQueue
        = s.urllcQueue.filter (fun e => ! isExpired s.time e) ∧
    (handle_expired_events s).mmtcQueue
        = s.mmtcQueue.filter (fun e => ! isExpired s.time e) ∧
    (handle_expired_events s).no_missed_urllc
        = s.no_missed_urllc + (s.urllcQueue.filter (isExpired s.time)).length ∧
    (handle_expired_events s).no_missed_mmtc
        = s.no_missed_mmtc + (s.mmtcQueue.filter (isExpired s.time)).length ∧
    (handle_expired_events s).trace
        = s.trace
          ++ (s.urllcQueue.filter (isExpired s.time)).reverse.map
              (fun e => (e, s.time, false))
          ++ (s.mmtcQueue.filter (isExpired s.time)).reverse.map
              (fun e => (e, s.time, false)) ∧
    (∀ e ∈ s.urllcQueue, isExpired s.time e = true →
      (getNode (handle_expired_events s).urllcPool e.node_id).active = false) ∧
    (∀ e ∈ s.mmtcQueue, isExpired s.time e = true →
      (getNode (handle_expired_events s).mmtcPool e.node_id).active = false) := by
  have hmemU : ∀ e ∈ (s.urllcQueue.filter (isExpired s.time)).reverse,
      e.type = URLLC_ARRIVAL := by
    intro e hEe
    exact hU e (List.mem_filter.1 (List.mem_reverse.1 hEe)).1
  obtain ⟨h1t, h1qU, h1qM, h1pM, h1mU, h1mM, h1tr, h1len, h1node⟩ :=
    foldExpire_urllc ((s.urllcQueue.filter (isExpired s.time)).reverse)
      { s with urllcQueue := s.urllcQueue.filter (fun e => ! isExpired s.time e) } hmemU
  have h1t' : (((s.urllcQueue.filter (isExpired s.time)).reverse).foldl expireStep
      { s with urllcQueue := s.urllcQueue.filter (fun e => ! isExpired s.time e) }).time
        = s.time := h1t
  have h1qM' : (((s.urllcQueue.filter (isExpired s.time)).reverse).foldl expireStep
      { s with urllcQueue := s.urllcQueue.filter (fun e => ! isExpired s.time e) }).mmtcQueue
        = s.mmtcQueue := h1qM
  have hshape : handle_expired_events s =
      (((((s.urllcQueue.filter (isExpired s.time)).reverse).foldl expireStep
          { s with urllcQueue := s.urllcQueue.filter (fun e => ! isExpired s.time e) }).mmtcQueue.filter
            (isExpired ((((s.urllcQueue.filter (isExpired s.time)).reverse).foldl expireStep
              { s with urllcQueue := s.urllcQueue.filter (fun e => ! isExpired s.time e) }).time))).reverse).foldl
        expireStep
        { (((s.urllcQueue.filter (isExpired s.time)).reverse).foldl expireStep
            { s with urllcQueue := s.urllcQueue.filter (fun e => ! isExpired s.time e) }) with
          mmtcQueue := (((s.urllcQueue.filter (isExpired s.time)).reverse).foldl expireStep
            { s with urllcQueue := s.urllcQueue.filter (fun e => ! isExpired s.time e) }).mmtcQueue.filter
              (fun e => ! isExpired ((((s.urllcQueue.filter (isExpired s.time)).reverse).foldl expireStep
                { s with urllcQueue := s.urllcQueue.filter (fun e => ! isExpired s.time e) }).time) e) } :=
    rfl
  rw [h1t', h1qM'] at hshape
  have hmemM : ∀ e ∈ (s.mmtcQueue.filter (isExpired s.time)).reverse,
      e.type = MMTC_ARRIVAL := by
    intro e hEe
    exact hM e (List.mem_filter.1 (List.mem_reverse.1 hEe)).1
  obtain ⟨h2t, h2qU, h2qM, h2pU, h2mM, h2mU, h2tr, h2len, h2node⟩ :=
    foldExpire_mmtc ((s.mmtcQueue.filter (isExpired s.time)).reverse)
      { (((s.urllcQueue.filter (isExpired s.time)).reverse).foldl expireStep
          { s with urllcQueue := s.urllcQueue.filter (fun e => ! isExpired s.time e) }) with
        mmtcQueue := s.mmtcQueue.filter (fun e => ! isExpired s.time e) } hmemM
  refine ⟨?_, ?_, ?_, ?_, ?_, ?_, ?_⟩
  · rw [hshape]
    have h2qU' : ((((s.mmtcQueue.filter (isExpired s.time)).reverse).foldl expireStep
        { (((s.urllcQueue.filter (isExpired s.time)).reverse).foldl expireStep
            { s with urllcQueue := s.urllcQueue.filter (fun e => ! isExpired s.time e) }) with
          mmtcQueue := s.mmtcQueue.filter (fun e => ! isExpired s.time e) }).urllcQueue)
        = (((s.urllcQueue.filter (isExpired s.time)).reverse).foldl expireStep
          { s with urllcQueue := s.urllcQueue.filter (fun e => ! isExpired s.time e) }).urllcQueue :=
      h2qU
    rw [h2qU', h1qU]
  · rw [hshape]
    exact h2qM
  · rw [hshape]
    have h2mU' : ((((s.mmtcQueue.filter (isExpired s.time)).reverse).foldl expireStep
        { (((s.urllcQueue.filter (isExpired s.time)).reverse).foldl expireStep
            { s with urllcQueue := s.urllcQueue.filter (fun e => ! isExpired s.time e) }) with
          mmtcQueue := s.mmtcQueue.filter (fun e => ! isExpired s.time e) }).no_missed_urllc)
        = (((s.urllcQueue.filter (isExpired s.time)).reverse).foldl expireStep
          { s with urllcQueue := s.urllcQueue.filter (fun e => ! isExpired s.time e) }).no_missed_urllc :=
      h2mU
    rw [h2mU', h1mU]
    simp
  · rw [hshape]
    have h2mM' : ((((s.mmtcQueue.filter (isExpired s.time)).reverse).foldl expireStep
        { (((s.urllcQueue.filter (isExpired s.time)).reverse).foldl expireStep
            { s with urllcQueue := s.urllcQueue.filter (fun e => ! isExpired s.time e) }) with
          mmtcQueue := s.mmtcQueue.filter (fun e => ! isExpired s.time e) }).no_missed_mmtc)
        = (((s.urllcQueue.filter (isExpired s.time)).reverse).foldl expireStep
            { s with urllcQueue := s.urllcQueue.filter (fun e => ! isExpired s.time e) }).no_missed_mmtc
          + ((s.mmtcQueue.filter (isExpired s.time)).reverse).length :=
      h2mM
    rw [h2mM', h1mM]
    simp
  · rw [hshape]
    have h2tr' : ((((s.mmtcQueue.filter (isExpired s.time)).reverse).foldl expireStep
        { (((s.urllcQueue.filter (isExpired s.time)).reverse).foldl expireStep
            { s with urllcQueue := s.urllcQueue.filter (fun e => ! isExpired s.time e) }) with
          mmtcQueue := s.mmtcQueue.filter (fun e => ! isExpired s.time e) }).trace)
        = (((s.urllcQueue.filter (isExpired s.time)).reverse).foldl expireStep
            { s with urllcQueue := s.urllcQueue.filter (fun e => ! isExpired s.time e) }).trace
          ++ ((s.mmtcQueue.filter (isExpired s.time)).reverse).map
              (fun e => (e, (((s.urllcQueue.filter (isExpired s.time)).reverse).foldl expireStep
                { s with urllcQueue := s.urllcQueue.filter (fun e => ! isExpired s.time e) }).time,
                false)) :=
      h2tr
    rw [h2tr', h1t', h1tr]
  · intro e hEe hex
    rw [hshape]
    have h2pU' : ((((s.mmtcQueue.filter (isExpired s.time)).reverse).foldl expireStep
        { (((s.urllcQueue.filter (isExpired s.time)).reverse).foldl expireStep
            { s with urllcQueue := s.urllcQueue.filter (fun e => ! isExpired s.time e) }) with
          mmtcQueue := s.mmtcQueue.filter (fun e => ! isExpired s.time e) }).urllcPool)
        = (((s.urllcQueue.filter (isExpired s.time)).reverse).foldl expireStep
          { s with urllcQueue := s.urllcQueue.filter (fun e => ! isExpired s.time e) }).urllcPool :=
      h2pU
    rw [h2pU']
    refine (h1node e.node_id).1 ⟨e, ?_, rfl⟩ (hbU e hEe)
    exact List.mem_reverse.2 (List.mem_filter.2 ⟨hEe, hex⟩)
  · intro e hEe hex
    rw [hshape]
    have hmemRM : e ∈ (s.mmtcQueue.filter (isExpired s.time)).reverse :=
      List.mem_reverse.2 (List.mem_filter.2 ⟨hEe, hex⟩)
    have hltM : e.node_id <
        ({ (((s.urllcQueue.filter (isExpired s.time)).reverse).foldl expireStep
            { s with urllcQueue := s.urllcQueue.filter (fun e => ! isExpired s.time e) }) with
          mmtcQueue := s.mmtcQueue.filter (fun e => ! isExpired s.time e) }).mmtcPool.length := by
      have : ({ (((s.urllcQueue.filter (isExpired s.time)).reverse).foldl expireStep
          { s with urllcQueue := s.urllcQueue.filter (fun e => ! isExpired s.time e) }) with
          mmtcQueue := s.mmtcQueue.filter (fun e => ! isExpired s.time e) }).mmtcPool
          = s.mmtcPool := h1pM
      rw [this]
      exact hbM e hEe
    exact (h2node e.node_id).1 ⟨e, hmemRM, rfl⟩ hltM

/-- C5 witness: Scenario C — the class-B request with deadline 5 queued at the
time-6 frame boundary is removed, bumps the missed-mMTC counter by 1, is
reported failed, and its node's `active` flag is cleared. -/
theorem C5_witness :
    (handle_expired_events c5state).urllcQueue
        = c5state.urllcQueue.filter (fun e => ! isExpired c5state.time e) ∧
    (handle_expired_events c5state).mmtcQueue
        = c5state.mmtcQueue.filter (fun e => ! isExpired c5state.time e) ∧
    (handle_expired_events c5state).no_missed_urllc
        = c5state.no_missed_urllc
          + (c5state.urllcQueue.filter (isExpired c5state.time)).length ∧
    (handle_expired_events c5state).no_missed_mmtc
        = c5state.no_missed_mmtc
          + (c5state.mmtcQueue.filter (isExpired c5state.time)).length ∧
    (handle_expired_events c5state).trace
        = c5state.trace
          ++ (c5state.urllcQueue.filter (isExpired c5state.time)).reverse.map
              (fun e => (e, c5state.time, false))
          ++ (c5state.mmtcQueue.filter (isExpired c5state.time)).reverse.map
              (fun e => (e, c5state.time, false)) ∧
    (∀ e ∈ c5state.urllcQueue, isExpired c5state.time e = true →
      (getNode (handle_expired_events c5state).urllcPool e.node_id).active = false) ∧
    (∀ e ∈ c5state.mmtcQueue, isExpired c5state.time e = true →
      (getNode (handle_expired_events c5state).mmtcPool e.node_id).active = false) :=
  C5_expiry c5state (by decide) (by decide) (by decide) (by decide)

/-- C4: overlap resolution serves, per assigned class-A node with live
pending requests, exactly one request — one with the earliest deadline —
removing it from the queue and reporting it with success; the node's other
requests stay queued; `active` ends up false when the node had exactly one
live request and true when it had more than one. -/
theorem C4_overlap_resolution (s : SimState) (n : Nat)
    (hnodup : s.urllcQueue.Nodup)
    (hlt : n < s.urllcPool.length)
    (hassigned : (getNode s.urllcPool n).assigned = true)
    (hne : s.urllcQueue.filter (fun e => e.node_id == n) ≠ []) :
    ∃ w, w ∈ s.urllcQueue.filter (fun e => e.node_id == n) ∧
      (∀ x ∈ s.urllcQueue.filter (fun e => e.node_id == n), w.dead_time ≤ x.dead_time) ∧
      (handle_send_queue s).urllcQueue.filter (fun e => e.node_id == n)
          = (s.urllcQueue.filter (fun e => e.node_id == n)).erase w ∧
      (handle_send_queue s).trace.filter (fun p => p.1.node_id == n)
          = s.trace.filter (fun p => p.1.node_id == n) ++ [(w, s.time, true)] ∧
      ((s.urllcQueue.filter (fun e => e.node_id == n)).length = 1 →
        (getNode (handle_send_queue s).urllcPool n).active = false) ∧
      (1 < (s.urllcQueue.filter (fun e => e.node_id == n)).length →
        (getNode (handle_send_queue s).urllcPool n).active = true) := by
  have hsrcG : (s.urllcQueue.filter
        (fun e => (getNode s.urllcPool e.node_id).assigned)).filter
          (fun x => x.node_id == n)
      = s.urllcQueue.filter (fun e => e.node_id == n) := by
    rw [List.filter_filter]
    apply List.filter_congr
    intro x _
    by_cases hx : x.node_id = n
    · rw [hx]
      simp [hassigned]
    · simp [hx]
  have hsrcnodup : (s.urllcQueue.filter
      (fun e => (getNode s.urllcPool e.node_id).assigned)).Nodup :=
    hnodup.filter _
  have hex : ∃ e ∈ s.urllcQueue.filter
      (fun e => (getNode s.urllcPool e.node_id).assigned), e.node_id = n := by
    rcases hq : s.urllcQueue.filter (fun e => e.node_id == n) with _ | ⟨e, es⟩
    · exact absurd hq hne
    · have he : e ∈ s.urllcQueue.filter (fun e2 => e2.node_id == n) := by
        rw [hq]
        exact List.mem_cons_self e es
      obtain ⟨hmem, hpn⟩ := List.mem_filter.1 he
      have hen : e.node_id = n := by simpa using hpn
      refine ⟨e, List.mem_filter.2 ⟨hmem, ?_⟩, hen⟩
      rw [hen]
      exact hassigned
  have hshape : handle_send_queue s =
      hsqLoop (s.urllcQueue.filter (fun e => (getNode s.urllcPool e.node_id).assigned))
        (s.urllcQueue.filter (fun e => (getNode s.urllcPool e.node_id).assigned)) [] s :=
    rfl
  obtain ⟨w, hwmem, hwmin, hq, htr, h1, h2⟩ :=
    hsqLoop_main n
      (s.urllcQueue.filter (fun e => (getNode s.urllcPool e.node_id).assigned))
      hsrcnodup
      (s.urllcQueue.filter (fun e => (getNode s.urllcPool e.node_id).assigned))
      [] s (List.Sublist.refl _) (by intro x hx; simp at hx) hex hlt
  rw [hsrcG] at hwmem hwmin h1 h2
  rw [hshape]
  refine ⟨w, hwmem, hwmin, ?_, ?_, ?_, ?_⟩
  · exact hq
  · exact htr
  · intro hc
    rw [h1 hc]
  · intro hc
    have hc' : (s.urllcQueue.filter (fun e => e.node_id == n)).length ≠ 1 := by omega
    rw [h2 hc']

/-- C4 witness: Scenario D — node 0 assigned with two live requests
(deadlines 12 and 9): exactly the deadline-9 one is served and the node stays
active with the deadline-12 request still queued. -/
theorem C4_witness :
    ∃ w, w ∈ c4state.urllcQueue.filter (fun e => e.node_id == 0) ∧
      (∀ x ∈ c4state.urllcQueue.filter (fun e => e.node_id == 0),
        w.dead_time ≤ x.dead_time) ∧
      (handle_send_queue c4state).urllcQueue.filter (fun e => e.node_id == 0)
          = (c4state.urllcQueue.filter (fun e => e.node_id == 0)).erase w ∧
      (handle_send_queue c4state).trace.filter (fun p => p.1.node_id == 0)
          = c4state.trace.filter (fun p => p.1.node_id == 0) ++ [(w, c4state.time, true)] ∧
      ((c4state.urllcQueue.filter (fun e => e.node_id == 0)).length = 1 →
        (getNode (handle_send_queue c4state).urllcPool 0).active = false) ∧
      (1 < (c4state.urllcQueue.filter (fun e => e.node_id == 0)).length →
        (getNode (handle_send_queue c4state).urllcPool 0).active = true) :=
  C4_overlap_resolution c4state 0 (by decide) (by decide) (by decide) (by decide)

/-- The `__handle_send_queue` loop never touches the superframe
bookkeeping. -/
theorem hsqLoop_frame_fields (src : List Event) :
    ∀ (l ov : List Event) (st : SimState),
      (hsqLoop src l ov st).frame_counter = st.frame_counter ∧
      (hsqLoop src l ov st).frame_loops = st.frame_loops ∧
      (hsqLoop src l ov st).node_pointer = st.node_pointer := by
  intro l
  induction l with
  | nil =>
    intro ov st
    exact ⟨rfl, rfl, rfl⟩
  | cons e rest ih =>
    intro ov st
    by_cases hov : e ∈ ov
    · have hstep : hsqLoop src (e :: rest) ov st = hsqLoop src rest ov st := by
        simp only [hsqLoop]
        rw [if_pos hov]
      rw [hstep]
      exact ih ov st
    · by_cases hg1 : ((src.filter (fun x => x.node_id == e.node_id)).length == 1) = true
      · have hstep : hsqLoop src (e :: rest) ov st = hsqLoop src rest ov
            { st with
              urllcQueue := st.urllcQueue.erase e
              trace := st.trace ++ [(e, st.time, true)]
              urllcPool := setActive st.urllcPool e.node_id false } := by
          simp only [hsqLoop]
          rw [if_neg hov, if_pos hg1]
        rw [hstep]
        exact ih ov _
      · rcases hsorted : (src.filter (fun x => x.node_id == e.node_id)).insertionSort dleAsc
          with _ | ⟨w, ws⟩
        · have hstep : hsqLoop src (e :: rest) ov st = hsqLoop src rest ov st := by
            simp only [hsqLoop]
            rw [if_neg hov, if_neg hg1, hsorted]
          rw [hstep]
          exact ih ov st
        · have hstep : hsqLoop src (e :: rest) ov st =
              hsqLoop src rest (ov ++ src.filter (fun x => x.node_id == e.node_id))
                { st with
                  urllcPool := setActive st.urllcPool e.node_id true
                  urllcQueue := st.urllcQueue.erase w
                  trace := st.trace ++ [(w, st.time, true)] } := by
            simp only [hsqLoop]
            rw [if_neg hov, if_neg hg1, hsorted]
          rw [hstep]
          exact ih _ _

theorem handle_send_queue_frame_fields (s : SimState) :
    (handle_send_queue s).frame_counter = s.frame_counter ∧
    (handle_send_queue s).frame_loops = s.frame_loops ∧
    (handle_send_queue s).node_pointer = s.node_pointer :=
  hsqLoop_frame_fields _ _ [] s

theorem expireStep_frame_fields (s : SimState) (e : Event) :
    (expireStep s e).frame_counter = s.frame_counter ∧
    (expireStep s e).frame_loops = s.frame_loops ∧
    (expireStep s e).node_pointer = s.node_pointer := by
  unfold expireStep
  split
  · exact ⟨rfl, rfl, rfl⟩
  · split
    · exact ⟨rfl, rfl, rfl⟩
    · exact ⟨rfl, rfl, rfl⟩

theorem foldExpire_frame_fields (rem : List Event) :
    ∀ s : SimState,
      (rem.foldl expireStep s).frame_counter = s.frame_counter ∧
      (rem.foldl expireStep s).frame_loops = s.frame_loops ∧
      (rem.foldl expireStep s).node_pointer = s.node_pointer := by
  induction rem with
  | nil =>
    intro s
    exact ⟨rfl, rfl, rfl⟩
  | cons e rest ih =>
    intro s
    rw [List.foldl_cons rest s]
    obtain ⟨i1, i2, i3⟩ := ih (expireStep s e)
    obtain ⟨j1, j2, j3⟩ := expireStep_frame_fields s e
    exact ⟨i1.trans j1, i2.trans j2, i3.trans j3⟩

theorem handle_expired_frame_fields (s : SimState) :
    (handle_expired_events s).frame_counter = s.frame_counter ∧
    (handle_expired_events s).frame_loops = s.frame_loops ∧
    (handle_expired_events s).node_pointer = s.node_pointer := by
  obtain ⟨a1, a2, a3⟩ := foldExpire_frame_fields
    ((s.urllcQueue.filter (isExpired s.time)).reverse)
    { s with urllcQueue := s.urllcQueue.filter (fun e => ! isExpired s.time e) }
  obtain ⟨b1, b2, b3⟩ := foldExpire_frame_fields
    (((((s.urllcQueue.filter (isExpired s.time)).reverse).foldl expireStep
        { s with urllcQueue := s.urllcQueue.filter (fun e => ! isExpired s.time e) }).mmtcQueue.filter
          (isExpired ((((s.urllcQueue.filter (isExpired s.time)).reverse).foldl expireStep
            { s with urllcQueue := s.urllcQueue.filter (fun e => ! isExpired s.time e) }).time))).reverse)
    { (((s.urllcQueue.filter (isExpired s.time)).reverse).foldl expireStep
        { s with urllcQueue := s.urllcQueue.filter (fun e => ! isExpired s.time e) }) with
      mmtcQueue := (((s.urllcQueue.filter (isExpired s.time)).reverse).foldl expireStep
        { s with urllcQueue := s.urllcQueue.filter (fun e => ! isExpired s.time e) }).mmtcQueue.filter
          (fun e => ! isExpired ((((s.urllcQueue.filter (isExpired s.time)).reverse).foldl expireStep
            { s with urllcQueue := s.urllcQueue.filter (fun e => ! isExpired s.time e) }).time) e) }
  exact ⟨b1.trans a1, b2.trans a2, b3.trans a3⟩

/-- The RRN_FCFS pass advances the superframe counter by
`(frame_counter + 1) % frame_loops` and keeps `frame_loops`. -/
theorem rrnFcfs_frame_step (s : SimState) :
    (round_robin_no_queue_info_first_come_first_served s).frame_counter
        = (s.frame_counter + 1) % s.frame_loops ∧
    (round_robin_no_queue_info_first_come_first_served s).frame_loops
        = s.frame_loops := by
  simp only [round_robin_no_queue_info_first_come_first_served]
  constructor
  · rw [(handle_send_queue_frame_fields _).1]
    split <;> split <;> rfl
  · rw [(handle_send_queue_frame_fields _).2.1]
    split <;> split <;> rfl

/-- Same superframe-counter step for the RRN_RRQ pass. -/
theorem rrnHalf_frame_step (s : SimState) :
    (round_robin_half_queue_info s).frame_counter
        = (s.frame_counter + 1) % s.frame_loops ∧
    (round_robin_half_queue_info s).frame_loops = s.frame_loops := by
  simp only [round_robin_half_queue_info]
  constructor
  · rw [(handle_send_queue_frame_fields _).1]
    split <;> split <;> rfl
  · rw [(handle_send_queue_frame_fields _).2.1]
    split <;> split <;> rfl

/-- Cadence of the reset condition along iterated RRN passes. -/
theorem rrn_iterate_cadence (f : SimState → SimState)
    (hf : ∀ s, (f s).frame_counter = (s.frame_counter + 1) % s.frame_loops)
    (hfl : ∀ s, (f s).frame_loops = s.frame_loops)
    (s0 : SimState) (hfc : s0.frame_counter = 0) (hL : 2 ≤ s0.frame_loops) :
    ∀ k : Nat,
      (f^[k] s0).frame_counter = k % s0.frame_loops ∧
      (f^[k] s0).frame_loops = s0.frame_loops ∧
      (rrnResetFires (f^[k] s0) = true ↔ (k + 1) % s0.frame_loops = 1) := by
  have hone : 1 % s0.frame_loops = 1 := Nat.mod_eq_of_lt (by omega)
  have hmod : ∀ k : Nat, (k % s0.frame_loops + 1) % s0.frame_loops
      = (k + 1) % s0.frame_loops := by
    intro k
    conv_rhs => rw [Nat.add_mod]
    rw [hone]
  intro k
  induction k with
  | zero =>
    refine ⟨by simpa using hfc, rfl, ?_⟩
    simp only [Function.iterate_zero, id_eq, rrnResetFires, hfc]
    exact beq_iff_eq
  | succ k ihk =>
    obtain ⟨i1, i2, _⟩ := ihk
    have hstep : f^[k + 1] s0 = f (f^[k] s0) := Function.iterate_succ_apply' f k s0
    have h1 : (f^[k + 1] s0).frame_counter = (k + 1) % s0.frame_loops := by
      rw [hstep, hf, i1, i2, hmod]
    have h2 : (f^[k + 1] s0).frame_loops = s0.frame_loops := by
      rw [hstep, hfl, i2]
    refine ⟨h1, h2, ?_⟩
    simp only [rrnResetFires, h1, h2]
    rw [hmod]
    exact beq_iff_eq

/-- C7 (amended, ratio at least 2): only the RRN passes touch the superframe
bookkeeping (arrivals and expiry leave counter and cursor alone); whenever the
reset condition fires the pass restarts its grant scan from index 0; and along
iterated passes of either RRN policy the reset condition fires exactly once
per superframe of `frame_loops` frames.  (With ratio 1 it never fires.) -/
theorem C7_amended_thm (s0 : SimState) (hfc : s0.frame_counter = 0)
    (hL : 2 ≤ s0.frame_loops) :
    (∀ (s : SimState) (e : Event),
      (handle_urllc_arrival s e).frame_counter = s.frame_counter ∧
      (handle_mmtc_arrival s e).frame_counter = s.frame_counter ∧
      (handle_expired_events s).frame_counter = s.frame_counter ∧
      (handle_urllc_arrival s e).node_pointer = s.node_pointer ∧
      (handle_mmtc_arrival s e).node_pointer = s.node_pointer ∧
      (handle_expired_events s).node_pointer = s.node_pointer) ∧
    (∀ s : SimState, rrnResetFires s = true →
      (round_robin_no_queue_info_first_come_first_served s).node_pointer
          = (grantLoop ((List.range s.urllcPool.length).drop 0)
              s.urllcPool s.no_pilots 0).2.2 ∧
      (round_robin_half_queue_info s).node_pointer
          = (grantLoop ((List.range s.urllcPool.length).drop 0)
              s.urllcPool s.no_pilots 0).2.2) ∧
    (∀ k : Nat,
      (round_robin_no_queue_info_first_come_first_served^[k] s0).frame_counter
          = k % s0.frame_loops ∧
      (round_robin_half_queue_info^[k] s0).frame_counter = k % s0.frame_loops ∧
      (rrnResetFires (round_robin_no_queue_info_first_come_first_served^[k] s0) = true
          ↔ (k + 1) % s0.frame_loops = 1) ∧
      (rrnResetFires (round_robin_half_queue_info^[k] s0) = true
          ↔ (k + 1) % s0.frame_loops = 1)) ∧
    (∀ j : Nat, ∃! m : Nat,
      j * s0.frame_loops < m ∧ m ≤ (j + 1) * s0.frame_loops ∧
      rrnResetFires
        (round_robin_no_queue_info_first_come_first_served^[m - 1] s0) = true ∧
      rrnResetFires (round_robin_half_queue_info^[m - 1] s0) = true) := by
  have cadF := rrn_iterate_cadence round_robin_no_queue_info_first_come_first_served
    (fun s => (rrnFcfs_frame_step s).1) (fun s => (rrnFcfs_frame_step s).2) s0 hfc hL
  have cadG := rrn_iterate_cadence round_robin_half_queue_info
    (fun s => (rrnHalf_frame_step s).1) (fun s => (rrnHalf_frame_step s).2) s0 hfc hL
  refine ⟨?_, ?_, ?_, ?_⟩
  · intro s e
    exact ⟨rfl, rfl, (handle_expired_frame_fields s).1, rfl, rfl,
      (handle_expired_frame_fields s).2.2⟩
  · intro s h
    constructor
    · simp only [round_robin_no_queue_info_first_come_first_served]
      rw [(handle_send_queue_frame_fields _).2.2, if_pos h]
      split <;> rfl
    · simp only [round_robin_half_queue_info]
      rw [(handle_send_queue_frame_fields _).2.2, if_pos h]
      split <;> rfl
  · intro k
    obtain ⟨f1, _, f3⟩ := cadF k
    obtain ⟨g1, _, g3⟩ := cadG k
    exact ⟨f1, g1, f3, g3⟩
  · intro j
    have h1L : 1 % s0.frame_loops = 1 := Nat.mod_eq_of_lt (by omega)
    have hfire : (j * s0.frame_loops + 1) % s0.frame_loops = 1 := by
      rw [Nat.add_mod, Nat.mul_mod_left, h1L]
      simpa using h1L
    have hsub1 : j * s0.frame_loops + 1 - 1 = j * s0.frame_loops := by
      simp
    refine ⟨j * s0.frame_loops + 1, ⟨Nat.lt_succ_self _, ?_, ?_, ?_⟩, ?_⟩
    · rw [Nat.succ_mul]
      exact Nat.add_le_add_left (by omega) _
    · rw [hsub1]
      exact ((cadF (j * s0.frame_loops)).2.2).2 hfire
    · rw [hsub1]
      exact ((cadG (j * s0.frame_loops)).2.2).2 hfire
    · rintro m' ⟨hm1, hm2, hm3, _⟩
      have hm2' : m' ≤ j * s0.frame_loops + s0.frame_loops := by
        rw [Nat.succ_mul] at hm2
        exact hm2
      have hmge : 1 ≤ m' := Nat.one_le_iff_ne_zero.2 (by
        intro h0
        rw [h0] at hm1
        exact absurd hm1 (Nat.not_lt_zero _))
      have hsum : m' - 1 + 1 = m' := Nat.sub_add_cancel hmge
      have hfires := ((cadF (m' - 1)).2.2).1 hm3
      rw [hsum] at hfires
      have hr : m' = j * s0.frame_loops + (m' - j * s0.frame_loops) :=
        (Nat.add_sub_cancel' (Nat.le_of_lt hm1)).symm
      have hrle : m' - j * s0.frame_loops ≤ s0.frame_loops :=
        Nat.sub_le_iff_le_add.2 (by rw [Nat.add_comm]; exact hm2')
      have hmod2 : m' % s0.frame_loops = (m' - j * s0.frame_loops) % s0.frame_loops := by
        conv_lhs => rw [hr]
        rw [Nat.add_mod, Nat.mul_mod_left, Nat.zero_add,
          Nat.mod_mod_of_dvd _ (dvd_refl s0.frame_loops)]
      rcases Nat.lt_or_ge (m' - j * s0.frame_loops) s0.frame_loops with hlt2 | hge2
      · have hone : m' - j * s0.frame_loops = 1 := by
          rw [hmod2, Nat.mod_eq_of_lt hlt2] at hfires
          exact hfires
        rw [hone] at hr
        exact hr
      · have hreq : m' - j * s0.frame_loops = s0.frame_loops := le_antisymm hrle hge2
        rw [hmod2, hreq, Nat.mod_self] at hfires
        exact absurd hfires (by omega)

/-- C7 witness: the amended cadence at a concrete ratio-2 run. -/
theorem C7_amended_witness :
    (∀ (s : SimState) (e : Event),
      (handle_urllc_arrival s e).frame_counter = s.frame_counter ∧
      (handle_mmtc_arrival s e).frame_counter = s.frame_counter ∧
      (handle_expired_events s).frame_counter = s.frame_counter ∧
      (handle_urllc_arrival s e).node_pointer = s.node_pointer ∧
      (handle_mmtc_arrival s e).node_pointer = s.node_pointer ∧
      (handle_expired_events s).node_pointer = s.node_pointer) ∧
    (∀ s : SimState, rrnResetFires s = true →
      (round_robin_no_queue_info_first_come_first_served s).node_pointer
          = (grantLoop ((List.range s.urllcPool.length).drop 0)
              s.urllcPool s.no_pilots 0).2.2 ∧
      (round_robin_half_queue_info s).node_pointer
          = (grantLoop ((List.range s.urllcPool.length).drop 0)
              s.urllcPool s.no_pilots 0).2.2) ∧
    (∀ k : Nat,
      (round_robin_no_queue_info_first_come_first_served^[k] c7s2).frame_counter
          = k % c7s2.frame_loops ∧
      (round_robin_half_queue_info^[k] c7s2).frame_counter = k % c7s2.frame_loops ∧
      (rrnResetFires (round_robin_no_queue_info_first_come_first_served^[k] c7s2) = true
          ↔ (k + 1) % c7s2.frame_loops = 1) ∧
      (rrnResetFires (round_robin_half_queue_info^[k] c7s2) = true
          ↔ (k + 1) % c7s2.frame_loops = 1)) ∧
    (∀ j : Nat, ∃! m : Nat,
      j * c7s2.frame_loops < m ∧ m ≤ (j + 1) * c7s2.frame_loops ∧
      rrnResetFires
        (round_robin_no_queue_info_first_come_first_served^[m - 1] c7s2) = true ∧
      rrnResetFires (round_robin_half_queue_info^[m - 1] c7s2) = true) :=
  C7_amended_thm c7s2 (by decide) (by decide)

/-! ## Claim C10: `clear_stats` -/

/-- C10: `clear_stats` zeroes every counter of the stats dictionary except
`config_no`, which is kept, and modifies no other field of the object. -/
theorem C10_clear_stats (st : Stats) :
    (clear_stats st).config_no = st.config_no ∧
    (clear_stats st).no_urllc_arrivals = 0 ∧
    (clear_stats st).no_mmtc_arrivals = 0 ∧
    (clear_stats st).no_missed_urllc = 0 ∧
    (clear_stats st).no_missed_mmtc = 0 ∧
    (clear_stats st).statsFile = st.statsFile := by
  refine ⟨rfl, rfl, rfl, rfl, rfl, rfl⟩

theorem costSum_append (pool : List Node) (a b : List Event) :
    costSum pool (a ++ b) = costSum pool a + costSum pool b := by
  simp [costSum]

theorem removeEvents_append (q a b : List Event) :
    removeEvents q (a ++ b) = removeEvents (removeEvents q a) b := by
  simp [removeEvents, List.foldl_append]

theorem costSum_eq_mul (pool : List Node) (c : Int) :
    ∀ l : List Event, (∀ e ∈ l, (getNode pool e.node_id).pilot_samples = c) →
      costSum pool l = c * l.length := by
  intro l
  induction l with
  | nil =>
    intro _
    simp [costSum_nil]
  | cons e l ih =>
    intro h
    rw [costSum_cons, h e (List.mem_cons_self e l), ih (fun f hf => h f (List.mem_cons_of_mem e hf))]
    push_cast [List.length_cons]
    ring

theorem removeEvents_filter {p : Event → Bool} :
    ∀ (pre q : List Event), (∀ e ∈ pre, p e = false) →
      (removeEvents q pre).filter p = q.filter p := by
  intro pre
  induction pre with
  | nil =>
    intro q _
    rw [removeEvents_nil]
  | cons e pre ih =>
    intro q h
    rw [removeEvents_cons, ih (q.erase e) (fun f hf => h f (List.mem_cons_of_mem e hf)),
      filter_erase_of_neg (h e (List.mem_cons_self e pre)) q]

theorem nodeMajor_congr :
    ∀ (is : List Nat) (q q' : List Event),
      (∀ j ∈ is, q'.filter (fun e => e.node_id == j) = q.filter (fun e => e.node_id == j)) →
      nodeMajor q' is = nodeMajor q is := by
  intro is
  induction is with
  | nil =>
    intro q q' _
    rfl
  | cons i is ih =>
    intro q q' h
    simp only [nodeMajor]
    rw [h i (List.mem_cons_self i is), ih q q' (fun j hj => h j (List.mem_cons_of_mem i hj))]

/-- Characterization of the inner RRQ per-node loop: it serves an affordable
prefix of its (filtered) input in order, removing exactly those events and
reporting each with success; the `false` flag fires — aborting the enclosing
pass — exactly when a suffix is left, whose head made the budget negative. -/
theorem rrqNodeLoop_spec (c : Int) (t : Int) :
    ∀ (l : List Event) (b : Int) (q : List Event) (tr : List TraceEntry), 0 ≤ b →
    ∃ pre post, l = pre ++ post ∧
      (rrqNodeLoop c t l b q tr).2.2.1 = removeEvents q pre ∧
      (rrqNodeLoop c t l b q tr).2.2.2 = tr ++ pre.map (fun e => (e, t, true)) ∧
      0 ≤ b - c * pre.length ∧
      ((post = [] ∧ (rrqNodeLoop c t l b q tr).1 = true ∧
          (rrqNodeLoop c t l b q tr).2.1 = b - c * pre.length) ∨
       (∃ e post2, post = e :: post2 ∧ (rrqNodeLoop c t l b q tr).1 = false ∧
          (rrqNodeLoop c t l b q tr).2.1 = b - c * pre.length - c ∧
          (rrqNodeLoop c t l b q tr).2.1 < 0)) := by
  intro l
  induction l with
  | nil =>
    intro b q tr hb
    refine ⟨[], [], by simp, by simp [rrqNodeLoop, removeEvents_nil],
      by simp [rrqNodeLoop], by simpa using hb, Or.inl ⟨rfl, by simp [rrqNodeLoop], ?_⟩⟩
    simp [rrqNodeLoop]
  | cons e rest ih =>
    intro b q tr hb
    by_cases h : 0 ≤ b - c
    · obtain ⟨pre', post', hsplit, hq, htr, hcost, hcase⟩ :=
        ih (b - c) (q.erase e) (tr ++ [(e, t, true)]) h
      have hstep : rrqNodeLoop c t (e :: rest) b q tr =
          rrqNodeLoop c t rest (b - c) (q.erase e) (tr ++ [(e, t, true)]) := by
        simp only [rrqNodeLoop]
        rw [if_pos h]
      have hlen : b - c * ((e :: pre').length : Int) = b - c - c * pre'.length := by
        push_cast [List.length_cons]
        ring
      refine ⟨e :: pre', post', by simpa using hsplit, ?_, ?_, ?_, ?_⟩
      · rw [hstep, removeEvents_cons]
        exact hq
      · rw [hstep, htr]
        simp
      · rw [hlen]
        exact hcost
      · rcases hcase with ⟨hpost, hcont, hbud⟩ | ⟨f, post2, hpost, hcont, hbud, hneg⟩
        · refine Or.inl ⟨hpost, by rw [hstep]; exact hcont, ?_⟩
          rw [hstep, hbud, hlen]
        · refine Or.inr ⟨f, post2, hpost, by rw [hstep]; exact hcont, ?_, ?_⟩
          · rw [hstep, hbud, hlen]
          · rw [hstep]
            exact hneg
    · have hstep : rrqNodeLoop c t (e :: rest) b q tr = (false, b - c, q, tr) := by
        simp only [rrqNodeLoop]
        rw [if_neg h]
      refine ⟨[], e :: rest, by simp, ?_, ?_, by simpa using hb, ?_⟩
      · rw [hstep, removeEvents_nil]
      · rw [hstep]
        simp
      · refine Or.inr ⟨e, rest, rfl, by rw [hstep], ?_, ?_⟩
        · rw [hstep]
          simp
        · rw [hstep]
          show b - c < 0
          omega

/-- Characterization of the RRQ pool loop: nodes are visited in the given
order; it serves a prefix of the node-major event order (all of each visited
node's queued events while the budget allows), removing exactly those events
and reporting each with success; if an event fails to fit, the loop returns
immediately with the abort flag and leaves everything later untouched. -/
theorem rrqPoolLoop_spec (pool : List Node) (t : Int) :
    ∀ (idxs : List Nat), idxs.Nodup →
    ∀ (b : Int) (q : List Event) (tr : List TraceEntry), 0 ≤ b →
    ∃ pre post, nodeMajor q idxs = pre ++ post ∧
      (rrqPoolLoop pool t idxs b q tr).2.2.1 = removeEvents q pre ∧
      (rrqPoolLoop pool t idxs b q tr).2.2.2 = tr ++ pre.map (fun e => (e, t, true)) ∧
      0 ≤ b - costSum pool pre ∧
      ((post = [] ∧ (rrqPoolLoop pool t idxs b q tr).1 = true ∧
          (rrqPoolLoop pool t idxs b q tr).2.1 = b - costSum pool pre) ∨
       (∃ e post2, post = e :: post2 ∧ (rrqPoolLoop pool t idxs b q tr).1 = false ∧
          (rrqPoolLoop pool t idxs b q tr).2.1
            = b - costSum pool pre - (getNode pool e.node_id).pilot_samples ∧
          (rrqPoolLoop pool t idxs b q tr).2.1 < 0)) := by
  intro idxs
  induction idxs with
  | nil =>
    intro _ b q tr hb
    refine ⟨[], [], rfl, by simp [rrqPoolLoop, removeEvents_nil], by simp [rrqPoolLoop],
      by simpa [costSum_nil] using hb, Or.inl ⟨rfl, by simp [rrqPoolLoop], ?_⟩⟩
    simp [rrqPoolLoop, costSum_nil]
  | cons i is ih =>
    intro hnodup b q tr hb
    have hnd_is : is.Nodup := (List.nodup_cons.1 hnodup).2
    have hi_not : i ∉ is := (List.nodup_cons.1 hnodup).1
    have hevs : ∀ e ∈ q.filter (fun e => e.node_id == i), e.node_id = i := by
      intro e he
      simpa using (List.mem_filter.1 he).2
    obtain ⟨pre1, post1, hsplit1, hq1, htr1, hcost1, hcase1⟩ :=
      rrqNodeLoop_spec (getNode pool i).pilot_samples t
        (q.filter (fun e => e.node_id == i)) b q tr hb
    have hpre1n : ∀ e ∈ pre1, e.node_id = i := by
      intro e he
      exact hevs e (by rw [hsplit1]; exact List.mem_append_left post1 he)
    have hpre1cost : costSum pool pre1
        = (getNode pool i).pilot_samples * pre1.length :=
      costSum_eq_mul pool (getNode pool i).pilot_samples pre1
        (fun e he => by rw [hpre1n e he])
    rcases hcase1 with ⟨hpost1, hcont1, hbud1⟩ | ⟨e, post2, hpost1, hcont1, hbud1, hneg1⟩
    · -- node i fully drained; the loop continues with the remaining nodes
      have hpre1evs : pre1 = q.filter (fun e => e.node_id == i) := by
        rw [hsplit1, hpost1, List.append_nil]
      have hstep : rrqPoolLoop pool t (i :: is) b q tr =
          rrqPoolLoop pool t is
            (rrqNodeLoop (getNode pool i).pilot_samples t
              (q.filter (fun e => e.node_id == i)) b q tr).2.1
            (rrqNodeLoop (getNode pool i).pilot_samples t
              (q.filter (fun e => e.node_id == i)) b q tr).2.2.1
            (rrqNodeLoop (getNode pool i).pilot_samples t
              (q.filter (fun e => e.node_id == i)) b q tr).2.2.2 := by
        simp only [rrqPoolLoop]
        rw [if_pos hcont1]
      have hb2 : 0 ≤ (rrqNodeLoop (getNode pool i).pilot_samples t
          (q.filter (fun e => e.node_id == i)) b q tr).2.1 := by
        rw [hbud1, ← hpre1cost]
        rw [← hpre1cost] at hcost1
        exact hcost1
      obtain ⟨pre2, post2, hsplit2, hq2, htr2, hcost2, hcase2⟩ :=
        ih hnd_is _ _ _ hb2
      have hfilt : ∀ j ∈ is,
          ((rrqNodeLoop (getNode pool i).pilot_samples t
            (q.filter (fun e => e.node_id == i)) b q tr).2.2.1).filter
              (fun e => e.node_id == j)
            = q.filter (fun e => e.node_id == j) := by
        intro j hj
        rw [hq1]
        refine removeEvents_filter pre1 q ?_
        intro e he
        have : e.node_id = i := hpre1n e he
        have hij : i ≠ j := fun hij => hi_not (hij ▸ hj)
        simp [this, hij]
      have hnm : nodeMajor ((rrqNodeLoop (getNode pool i).pilot_samples t
          (q.filter (fun e => e.node_id == i)) b q tr).2.2.1) is = nodeMajor q is :=
        nodeMajor_congr is q _ hfilt
      rw [hnm] at hsplit2
      refine ⟨pre1 ++ pre2, post2, ?_, ?_, ?_, ?_, ?_⟩
      · simp only [nodeMajor]
        rw [← hpre1evs, hsplit2, List.append_assoc]
      · rw [hstep, hq2, hq1, removeEvents_append]
      · rw [hstep, htr2, htr1]
        simp
      · rw [costSum_append, hpre1cost]
        rw [hbud1] at hcost2
        omega
      · rcases hcase2 with ⟨hpostB, hcontB, hbudB⟩ | ⟨f, postf, hpostB, hcontB, hbudB, hnegB⟩
        · refine Or.inl ⟨hpostB, by rw [hstep]; exact hcontB, ?_⟩
          rw [hstep, hbudB, hbud1, costSum_append, hpre1cost]
          ring
        · refine Or.inr ⟨f, postf, hpostB, by rw [hstep]; exact hcontB, ?_, ?_⟩
          · rw [hstep, hbudB, hbud1, costSum_append, hpre1cost]
            ring
          · rw [hstep]
            exact hnegB
    · -- node i has an unaffordable event: the whole pass returns here
      have hstep : rrqPoolLoop pool t (i :: is) b q tr =
          rrqNodeLoop (getNode pool i).pilot_samples t
            (q.filter (fun e => e.node_id == i)) b q tr := by
        simp only [rrqPoolLoop]
        rw [if_neg (by simp [hcont1])]
      have hen : e.node_id = i := by
        refine hevs e ?_
        rw [hsplit1, hpost1]
        exact List.mem_append_right pre1 (List.mem_cons_self e post2)
      have hecost : (getNode pool e.node_id).pilot_samples
          = (getNode pool i).pilot_samples := by
        rw [hen]
      refine ⟨pre1, post1 ++ nodeMajor q is, ?_, ?_, ?_, ?_, ?_⟩
      · simp only [nodeMajor]
        rw [hsplit1, List.append_assoc]
      · rw [hstep]
        exact hq1
      · rw [hstep]
        exact htr1
      · rw [hpre1cost]
        exact hcost1
      · refine Or.inr ⟨e, post2 ++ nodeMajor q is, ?_, by rw [hstep]; exact hcont1, ?_, ?_⟩
        · rw [hpost1]
          rfl
        · rw [hstep, hbud1, hpre1cost, hecost]
        · rw [hstep]
          exact hneg1

/-! ## Claim C9: RRQ_RRQ pool-order draining (Scenario B) -/

/-- C9: in every state, the RRQ_RRQ pass serves a prefix of the node-major
order of the class-A queue (pool order, each node's queued requests drained
in order while the budget allows), the whole pass returns the instant a
request would make the budget negative (class B and everything later
untouched), and only when class A is fully drained with strictly positive
leftover is class B served the same way with that leftover; in particular,
Scenario B: budget 4, node 0 drains both cost-2 requests (4 to 2 to 0), the
pass returns at node 1's request, which stays queued, and class B is never
reached. -/
theorem C9_rrq_rrq_thm :
    (∀ s : SimState, 0 ≤ s.no_pilots →
      ∃ pre post,
        nodeMajor s.urllcQueue (List.range s.urllcPool.length) = pre ++ post ∧
        (round_robin_queue_info s).urllcQueue = removeEvents s.urllcQueue pre ∧
        0 ≤ s.no_pilots - costSum s.urllcPool pre ∧
        ((∃ e post2, post = e :: post2 ∧
            s.no_pilots - costSum s.urllcPool pre
              - (getNode s.urllcPool e.node_id).pilot_samples < 0 ∧
            (round_robin_queue_info s).mmtcQueue = s.mmtcQueue ∧
            (round_robin_queue_info s).trace
              = s.trace ++ pre.map (fun e2 => (e2, s.time, true))) ∨
         (post = [] ∧ s.no_pilots - costSum s.urllcPool pre ≤ 0 ∧
            (round_robin_queue_info s).mmtcQueue = s.mmtcQueue ∧
            (round_robin_queue_info s).trace
              = s.trace ++ pre.map (fun e2 => (e2, s.time, true))) ∨
         (post = [] ∧ 0 < s.no_pilots - costSum s.urllcPool pre ∧
            ∃ preB postB,
              nodeMajor s.mmtcQueue (List.range s.mmtcPool.length) = preB ++ postB ∧
              (round_robin_queue_info s).mmtcQueue = removeEvents s.mmtcQueue preB ∧
              costSum s.mmtcPool preB ≤ s.no_pilots - costSum s.urllcPool pre ∧
              (round_robin_queue_info s).trace
                = s.trace ++ pre.map (fun e2 => (e2, s.time, true))
                  ++ preB.map (fun e2 => (e2, s.time, true)) ∧
              (∀ e postB2, postB = e :: postB2 →
                s.no_pilots - costSum s.urllcPool pre - costSum s.mmtcPool preB
                  - (getNode s.mmtcPool e.node_id).pilot_samples < 0)))) ∧
    (round_robin_queue_info c9state).urllcQueue = [c9b1] ∧
    (round_robin_queue_info c9state).trace = [(c9a1, 1, true), (c9a2, 1, true)] ∧
    (round_robin_queue_info c9state).mmtcQueue = c9state.mmtcQueue ∧
    (round_robin_queue_info c9state).no_pilots = 4 := by
  refine ⟨?_, by decide, by decide, by decide, by decide⟩
  intro s hb
  obtain ⟨pre, post, hsplit, hq, htr, hcost, hcase⟩ :=
    rrqPoolLoop_spec s.urllcPool s.time (List.range s.urllcPool.length)
      (List.nodup_range _) s.no_pilots s.urllcQueue s.trace hb
  have hf : round_robin_queue_info s =
      (if (rrqPoolLoop s.urllcPool s.time (List.range s.urllcPool.length)
          s.no_pilots s.urllcQueue s.trace).1 = true then
        (if 0 < (rrqPoolLoop s.urllcPool s.time (List.range s.urllcPool.length)
            s.no_pilots s.urllcQueue s.trace).2.1 then
          { s with
            urllcQueue := (rrqPoolLoop s.urllcPool s.time (List.range s.urllcPool.length)
              s.no_pilots s.urllcQueue s.trace).2.2.1
            mmtcQueue := (rrqPoolLoop s.mmtcPool s.time (List.range s.mmtcPool.length)
              (rrqPoolLoop s.urllcPool s.time (List.range s.urllcPool.length)
                s.no_pilots s.urllcQueue s.trace).2.1
              s.mmtcQueue
              (rrqPoolLoop s.urllcPool s.time (List.range s.urllcPool.length)
                s.no_pilots s.urllcQueue s.trace).2.2.2).2.2.1
            trace := (rrqPoolLoop s.mmtcPool s.time (List.range s.mmtcPool.length)
              (rrqPoolLoop s.urllcPool s.time (List.range s.urllcPool.length)
                s.no_pilots s.urllcQueue s.trace).2.1
              s.mmtcQueue
              (rrqPoolLoop s.urllcPool s.time (List.range s.urllcPool.length)
                s.no_pilots s.urllcQueue s.trace).2.2.2).2.2.2 }
        else
          { s with
            urllcQueue := (rrqPoolLoop s.urllcPool s.time (List.range s.urllcPool.length)
              s.no_pilots s.urllcQueue s.trace).2.2.1
            trace := (rrqPoolLoop s.urllcPool s.time (List.range s.urllcPool.length)
              s.no_pilots s.urllcQueue s.trace).2.2.2 })
      else
        { s with
          urllcQueue := (rrqPoolLoop s.urllcPool s.time (List.range s.urllcPool.length)
            s.no_pilots s.urllcQueue s.trace).2.2.1
          trace := (rrqPoolLoop s.urllcPool s.time (List.range s.urllcPool.length)
            s.no_pilots s.urllcQueue s.trace).2.2.2 }) :=
    rfl
  rcases hcase with ⟨hpost, hcont, hbud⟩ | ⟨e, post2, hpost, hcont, hbud, hneg⟩
  · by_cases hpos : 0 < s.no_pilots - costSum s.urllcPool pre
    · have hpos' : 0 < (rrqPoolLoop s.urllcPool s.time (List.range s.urllcPool.length)
          s.no_pilots s.urllcQueue s.trace).2.1 := by
        rw [hbud]; exact hpos
      obtain ⟨preB, postB, hsplitB, hqB, htrB, hcostB, hcaseB⟩ :=
        rrqPoolLoop_spec s.mmtcPool s.time (List.range s.mmtcPool.length)
          (List.nodup_range _)
          (rrqPoolLoop s.urllcPool s.time (List.range s.urllcPool.length)
            s.no_pilots s.urllcQueue s.trace).2.1
          s.mmtcQueue
          (rrqPoolLoop s.urllcPool s.time (List.range s.urllcPool.length)
            s.no_pilots s.urllcQueue s.trace).2.2.2
          (le_of_lt hpos')
      refine ⟨pre, post, hsplit, ?_, hcost, Or.inr (Or.inr ⟨hpost, hpos, preB, postB,
        hsplitB, ?_, ?_, ?_, ?_⟩)⟩
      · rw [hf, if_pos hcont, if_pos hpos']
        exact hq
      · rw [hf, if_pos hcont, if_pos hpos']
        exact hqB
      · rw [hbud] at hcostB
        omega
      · rw [hf, if_pos hcont, if_pos hpos']
        rw [htrB, htr]
      · intro f postB2 hfB
        rcases hcaseB with ⟨hB, _⟩ | ⟨g, postg, hB, _, hbudB, hnegB⟩
        · rw [hfB] at hB
          exact absurd hB (by simp)
        · rw [hfB] at hB
          injection hB with hg hrest
          rw [← hg] at hbudB
          rw [hbudB, hbud] at hnegB
          omega
    · have hneg' : ¬ 0 < (rrqPoolLoop s.urllcPool s.time (List.range s.urllcPool.length)
          s.no_pilots s.urllcQueue s.trace).2.1 := by
        rw [hbud]; exact hpos
      refine ⟨pre, post, hsplit, ?_, hcost,
        Or.inr (Or.inl ⟨hpost, by omega, ?_, ?_⟩)⟩
      · rw [hf, if_pos hcont, if_neg hneg']
        exact hq
      · rw [hf, if_pos hcont, if_neg hneg']
      · rw [hf, if_pos hcont, if_neg hneg']
        exact htr
  · have hcont' : ¬ (rrqPoolLoop s.urllcPool s.time (List.range s.urllcPool.length)
        s.no_pilots s.urllcQueue s.trace).1 = true := by
      simp [hcont]
    refine ⟨pre, post, hsplit, ?_, hcost,
      Or.inl ⟨e, post2, hpost, by omega, ?_, ?_⟩⟩
    · rw [hf, if_neg hcont']
      exact hq
    · rw [hf, if_neg hcont']
    · rw [hf, if_neg hcont']
      exact htr

/-- C9 witness: the general characterization applied at a run whose class-A
pass drains fully with leftover 3, so the class-B clause is exercised — both
class-B requests are then served in pool order, checked concretely. -/
theorem C9_rrq_rrq_witness :
    (∃ pre post,
      nodeMajor c9dstate.urllcQueue (List.range c9dstate.urllcPool.length) = pre ++ post ∧
      (round_robin_queue_info c9dstate).urllcQueue = removeEvents c9dstate.urllcQueue pre ∧
      0 ≤ c9dstate.no_pilots - costSum c9dstate.urllcPool pre ∧
      ((∃ e post2, post = e :: post2 ∧
          c9dstate.no_pilots - costSum c9dstate.urllcPool pre
            - (getNode c9dstate.urllcPool e.node_id).pilot_samples < 0 ∧
          (round_robin_queue_info c9dstate).mmtcQueue = c9dstate.mmtcQueue ∧
          (round_robin_queue_info c9dstate).trace
            = c9dstate.trace ++ pre.map (fun e2 => (e2, c9dstate.time, true))) ∨
       (post = [] ∧ c9dstate.no_pilots - costSum c9dstate.urllcPool pre ≤ 0 ∧
          (round_robin_queue_info c9dstate).mmtcQueue = c9dstate.mmtcQueue ∧
          (round_robin_queue_info c9dstate).trace
            = c9dstate.trace ++ pre.map (fun e2 => (e2, c9dstate.time, true))) ∨
       (post = [] ∧ 0 < c9dstate.no_pilots - costSum c9dstate.urllcPool pre ∧
          ∃ preB postB,
            nodeMajor c9dstate.mmtcQueue (List.range c9dstate.mmtcPool.length)
              = preB ++ postB ∧
            (round_robin_queue_info c9dstate).mmtcQueue
              = removeEvents c9dstate.mmtcQueue preB ∧
            costSum c9dstate.mmtcPool preB
              ≤ c9dstate.no_pilots - costSum c9dstate.urllcPool pre ∧
            (round_robin_queue_info c9dstate).trace
              = c9dstate.trace ++ pre.map (fun e2 => (e2, c9dstate.time, true))
                ++ preB.map (fun e2 => (e2, c9dstate.time, true)) ∧
            (∀ e postB2, postB = e :: postB2 →
              c9dstate.no_pilots - costSum c9dstate.urllcPool pre
                - costSum c9dstate.mmtcPool preB
                - (getNode c9dstate.mmtcPool e.node_id).pilot_samples < 0)))) ∧
    (round_robin_queue_info c9dstate).urllcQueue = [] ∧
    (round_robin_queue_info c9dstate).mmtcQueue = [] ∧
    (round_robin_queue_info c9dstate).trace
      = [(c9da1, 2, true), (c9dm1, 2, true), (c9dm2, 2, true)] :=
  ⟨C9_rrq_rrq_thm.1 c9dstate (by decide), by decide, by decide, by decide⟩

/-! ## Claim C3: the RRQ_FCFS class-B pass skips fitting requests -/

/-- C3: with budget 3 and class-B requests of cost 1 at deadlines 3, 2, 1,
the RRQ_FCFS class-B pass serves the deadline-3 and deadline-1 requests and
leaves the deadline-2 request queued, even though it fits the remaining
budget (3 - 1 - 1 = 1 >= 0): the in-place `remove` during iteration skips the
entry after every served one. -/
theorem C3_skip_eval :
    (round_robin_queue_first_come_first_served c3state).mmtcQueue = [c3m2] ∧
    (round_robin_queue_first_come_first_served c3state).trace =
      [(c3m1, 1, true), (c3m3, 1, true)] ∧
    0 ≤ c3state.no_pilots - c3nB.pilot_samples - c3nB.pilot_samples := by
  refine ⟨by decide, by decide, by decide⟩

/-! ## Claim C8: the `assigned` flag is never cleared -/

/-- C8: the RRN_FCFS allocation pass grants node 0 (serving its request via
overlap resolution) but leaves `assigned = true` at the end of the pass: no
code path ever clears the flag, so it is not transient per-frame. -/
theorem C8_assigned_sticky_eval :
    (getNode c8state.urllcPool 0).assigned = false ∧
    (round_robin_no_queue_info_first_come_first_served c8state).urllcQueue = [] ∧
    (getNode (round_robin_no_queue_info_first_come_first_served c8state).urllcPool 0).assigned
      = true := by
  refine ⟨by decide, by decide, by decide⟩

/-! ## Claim C1: per-frame budget violated by stale `assigned` grants -/

/-- C1: in frame 2 the RRN_FCFS pass grants nothing (cursor past the pool) and
has budget 2, yet serves both the class-B request and — through the stale
`assigned` flag left from frame 1 — the class-A request: total served cost 4
exceeds the per-frame budget `no_pilots = 2`. -/
theorem C1_budget_exceeded_eval :
    c1spre.no_pilots = 2 ∧
    servedCost c1spre (c1spost.trace.drop c1spre.trace.length) = 4 ∧
    exceptOk (assign_pilots c1spre) = some c1spost ∧
    c1spre.no_pilots < servedCost c1spre (c1spost.trace.drop c1spre.trace.length) := by
  refine ⟨by decide, by decide, by decide, by decide⟩

/-! ## Claim C2 (counterexample part): leftover budget is not offered to
class B after a failed class-A request -/

/-- C2 counterexample: after serving the first class-A request (5 to 2) the
second fails (2 - 3 < 0) and its cost is not restored, so the running budget
is -1 and the class-B queue is never offered the arithmetic leftover 2, even
though the queued class-B request of cost 1 fits it. -/
theorem C2_cex :
    (fist_come_first_served c2state).mmtcQueue = [c2m1] ∧
    (fist_come_first_served c2state).trace = [(c2e1, 0, true)] ∧
    0 ≤ c2state.no_pilots - c2nA.pilot_samples - c2nB.pilot_samples := by
  refine ⟨by decide, by decide, by decide⟩

/-- C2 (amended): the FCFS_FCFS class-A pass serves a maximal affordable
prefix of the ascending-deadline ordering; the first unaffordable request and
all later ones remain queued, and the failing cost is not restored, so the
running budget stays negative; the class-B queue is served (greedy
ascending-deadline prefix) with the leftover only when the class-A pass
consumed its whole queue and left strictly positive budget — after a failed
class-A request, class B is not offered anything. -/
theorem C2_amended_thm (s : SimState) (hb : 0 ≤ s.no_pilots) :
    ∃ pre post, s.urllcQueue.insertionSort dleAsc = pre ++ post ∧
      (fist_come_first_served s).urllcQueue = removeEvents s.urllcQueue pre ∧
      0 ≤ s.no_pilots - costSum s.urllcPool pre ∧
      ((∃ e post', post = e :: post' ∧
          s.no_pilots - costSum s.urllcPool pre
            - (getNode s.urllcPool e.node_id).pilot_samples < 0 ∧
          (fist_come_first_served s).mmtcQueue = s.mmtcQueue ∧
          (fist_come_first_served s).trace =
            s.trace ++ pre.map (fun e2 => (e2, s.time, true))) ∨
       (post = [] ∧ s.no_pilots - costSum s.urllcPool pre ≤ 0 ∧
          (fist_come_first_served s).mmtcQueue = s.mmtcQueue ∧
          (fist_come_first_served s).trace =
            s.trace ++ pre.map (fun e2 => (e2, s.time, true))) ∨
       (post = [] ∧ 0 < s.no_pilots - costSum s.urllcPool pre ∧
          ∃ preB postB, s.mmtcQueue.insertionSort dleAsc = preB ++ postB ∧
            (fist_come_first_served s).mmtcQueue = removeEvents s.mmtcQueue preB ∧
            costSum s.mmtcPool preB ≤ s.no_pilots - costSum s.urllcPool pre ∧
            (fist_come_first_served s).trace =
              s.trace ++ pre.map (fun e2 => (e2, s.time, true))
                ++ preB.map (fun e2 => (e2, s.time, true)) ∧
            (∀ e postB', postB = e :: postB' →
              s.no_pilots - costSum s.urllcPool pre - costSum s.mmtcPool preB
                - (getNode s.mmtcPool e.node_id).pilot_samples < 0))) := by
  obtain ⟨pre, post, hsplit, hq, htr, hcost, hcase⟩ :=
    serveSortedLoop_spec s.urllcPool s.time (s.urllcQueue.insertionSort dleAsc)
      s.no_pilots s.urllcQueue s.trace hb
  have hf : fist_come_first_served s =
      (if 0 < (serveSortedLoop s.urllcPool s.time (s.urllcQueue.insertionSort dleAsc)
          s.no_pilots s.urllcQueue s.trace).1 then
        { s with
          urllcQueue := (serveSortedLoop s.urllcPool s.time
            (s.urllcQueue.insertionSort dleAsc) s.no_pilots s.urllcQueue s.trace).2.1
          mmtcQueue := (serveSortedLoop s.mmtcPool s.time
            (s.mmtcQueue.insertionSort dleAsc)
            (serveSortedLoop s.urllcPool s.time (s.urllcQueue.insertionSort dleAsc)
              s.no_pilots s.urllcQueue s.trace).1
            s.mmtcQueue
            (serveSortedLoop s.urllcPool s.time (s.urllcQueue.insertionSort dleAsc)
              s.no_pilots s.urllcQueue s.trace).2.2).2.1
          trace := (serveSortedLoop s.mmtcPool s.time
            (s.mmtcQueue.insertionSort dleAsc)
            (serveSortedLoop s.urllcPool s.time (s.urllcQueue.insertionSort dleAsc)
              s.no_pilots s.urllcQueue s.trace).1
            s.mmtcQueue
            (serveSortedLoop s.urllcPool s.time (s.urllcQueue.insertionSort dleAsc)
              s.no_pilots s.urllcQueue s.trace).2.2).2.2 }
      else
        { s with
          urllcQueue := (serveSortedLoop s.urllcPool s.time
            (s.urllcQueue.insertionSort dleAsc) s.no_pilots s.urllcQueue s.trace).2.1
          trace := (serveSortedLoop s.urllcPool s.time
            (s.urllcQueue.insertionSort dleAsc) s.no_pilots s.urllcQueue s.trace).2.2 }) :=
    rfl
  rcases hcase with ⟨hpost, hbud⟩ | ⟨e, post', hpost, hbud, hneg⟩
  · by_cases hpos : 0 < s.no_pilots - costSum s.urllcPool pre
    · have hpos' : 0 < (serveSortedLoop s.urllcPool s.time
          (s.urllcQueue.insertionSort dleAsc) s.no_pilots s.urllcQueue s.trace).1 := by
        rw [hbud]; exact hpos
      obtain ⟨preB, postB, hsplitB, hqB, htrB, hcostB, hcaseB⟩ :=
        serveSortedLoop_spec s.mmtcPool s.time (s.mmtcQueue.insertionSort dleAsc)
          (serveSortedLoop s.urllcPool s.time (s.urllcQueue.insertionSort dleAsc)
            s.no_pilots s.urllcQueue s.trace).1
          s.mmtcQueue
          (serveSortedLoop s.urllcPool s.time (s.urllcQueue.insertionSort dleAsc)
            s.no_pilots s.urllcQueue s.trace).2.2
          (le_of_lt hpos')
      refine ⟨pre, post, hsplit, ?_, hcost, Or.inr (Or.inr ⟨hpost, hpos, preB, postB,
        hsplitB, ?_, ?_, ?_, ?_⟩)⟩
      · rw [hf, if_pos hpos']
        exact hq
      · rw [hf, if_pos hpos']
        exact hqB
      · rw [hbud] at hcostB
        omega
      · rw [hf, if_pos hpos']
        rw [htrB, htr]
      · intro f postB' hfB
        rcases hcaseB with ⟨hB, _⟩ | ⟨g, postB2, hB, hbudB, hnegB⟩
        · rw [hfB] at hB
          exact absurd hB (by simp)
        · rw [hfB] at hB
          injection hB with hg hrest
          rw [← hg] at hbudB
          rw [hbudB, hbud] at hnegB
          omega
    · have hneg' : ¬ 0 < (serveSortedLoop s.urllcPool s.time
          (s.urllcQueue.insertionSort dleAsc) s.no_pilots s.urllcQueue s.trace).1 := by
        rw [hbud]; exact hpos
      refine ⟨pre, post, hsplit, ?_, hcost,
        Or.inr (Or.inl ⟨hpost, by omega, ?_, ?_⟩)⟩
      · rw [hf, if_neg hneg']
        exact hq
      · rw [hf, if_neg hneg']
      · rw [hf, if_neg hneg']
        exact htr
  · have hneg' : ¬ 0 < (serveSortedLoop s.urllcPool s.time
        (s.urllcQueue.insertionSort dleAsc) s.no_pilots s.urllcQueue s.trace).1 := by
      omega
    refine ⟨pre, post, hsplit, ?_, hcost,
      Or.inl ⟨e, post', hpost, by omega, ?_, ?_⟩⟩
    · rw [hf, if_neg hneg']
      exact hq
    · rw [hf, if_neg hneg']
    · rw [hf, if_neg hneg']
      exact htr

/-- C2 witness: the amended theorem applied to the concrete C2 state. -/
theorem C2_amended_witness :
    ∃ pre post, c2state.urllcQueue.insertionSort dleAsc = pre ++ post ∧
      (fist_come_first_served c2state).urllcQueue = removeEvents c2state.urllcQueue pre ∧
      0 ≤ c2state.no_pilots - costSum c2state.urllcPool pre ∧
      ((∃ e post', post = e :: post' ∧
          c2state.no_pilots - costSum c2state.urllcPool pre
            - (getNode c2state.urllcPool e.node_id).pilot_samples < 0 ∧
          (fist_come_first_served c2state).mmtcQueue = c2state.mmtcQueue ∧
          (fist_come_first_served c2state).trace =
            c2state.trace ++ pre.map (fun e2 => (e2, c2state.time, true))) ∨
       (post = [] ∧ c2state.no_pilots - costSum c2state.urllcPool pre ≤ 0 ∧
          (fist_come_first_served c2state).mmtcQueue = c2state.mmtcQueue ∧
          (fist_come_first_served c2state).trace =
            c2state.trace ++ pre.map (fun e2 => (e2, c2state.time, true))) ∨
       (post = [] ∧ 0 < c2state.no_pilots - costSum c2state.urllcPool pre ∧
          ∃ preB postB, c2state.mmtcQueue.insertionSort dleAsc = preB ++ postB ∧
            (fist_come_first_served c2state).mmtcQueue = removeEvents c2state.mmtcQueue preB ∧
            costSum c2state.mmtcPool preB ≤
              c2state.no_pilots - costSum c2state.urllcPool pre ∧
            (fist_come_first_served c2state).trace =
              c2state.trace ++ pre.map (fun e2 => (e2, c2state.time, true))
                ++ preB.map (fun e2 => (e2, c2state.time, true)) ∧
            (∀ e postB', postB = e :: postB' →
              c2state.no_pilots - costSum c2state.urllcPool pre
                - costSum c2state.mmtcPool preB
                - (getNode c2state.mmtcPool e.node_id).pilot_samples < 0))) :=
  C2_amended_thm c2state (by decide)

/-! ## Claim C6 (counterexample part): unknown policy name fails at the first
departure, not at construction -/

/-- C6 counterexample: with an unrecognized policy name the simulation object
is built, an arrival event is fully handled (counter bumped, request queued,
node activated), and only the first frame-boundary event's allocation dispatch
fails. -/
theorem C6_cex :
    c6s0.pilot_strategy = "NOT_A_STRATEGY" ∧
    (handle_urllc_arrival { c6s0 with time := 5 } c6e1).no_urllc_arrivals = 2 ∧
    (handle_urllc_arrival { c6s0 with time := 5 } c6e1).urllcQueue = [c6e1] ∧
    exceptErr (handle_departure
      { (handle_urllc_arrival { c6s0 with time := 5 } c6e1) with time := 10 })
      = some "KeyError" := by
  refine ⟨by decide, by decide, by decide, by decide⟩

/-- C6 (amended): an unrecognized policy name is not detected at
construction — `mkSimulation` succeeds and keeps the name — and arrival
events are still handled in full; the run fails with the key-lookup error
exactly when the allocation dispatch is invoked (first frame boundary). -/
theorem C6_amended_thm (name : String) (hname : name ∉ strategyNames)
    (p fl : Int) (pu pm : List Node) (s : SimState)
    (hs : s.pilot_strategy = name) (e : Event) :
    (mkSimulation p fl name pu pm).pilot_strategy = name ∧
    (handle_urllc_arrival s e).no_urllc_arrivals = s.no_urllc_arrivals + 1 ∧
    (handle_urllc_arrival s e).urllcQueue = e :: s.urllcQueue ∧
    exceptErr (assign_pilots s) = some "KeyError" := by
  refine ⟨rfl, rfl, rfl, ?_⟩
  simp only [strategyNames, List.mem_cons, List.not_mem_nil, or_false] at hname
  push_neg at hname
  obtain ⟨h1, h2, h3, h4, h5⟩ := hname
  simp [assign_pilots, hs, h1, h2, h3, h4, h5, exceptErr]

/-- C6 witness: the amended theorem at the concrete bogus-strategy run. -/
theorem C6_amended_witness :
    (mkSimulation 4 10 "NOT_A_STRATEGY" [c6nA] [c6nA]).pilot_strategy = "NOT_A_STRATEGY" ∧
    (handle_urllc_arrival c6s0 c6e1).no_urllc_arrivals = c6s0.no_urllc_arrivals + 1 ∧
    (handle_urllc_arrival c6s0 c6e1).urllcQueue = c6e1 :: c6s0.urllcQueue ∧
    exceptErr (assign_pilots c6s0) = some "KeyError" :=
  C6_amended_thm "NOT_A_STRATEGY" (by decide) 4 10 [c6nA] [c6nA] c6s0 rfl c6e1

/-! ## Claim C7 (counterexample part): with ratio 1 the cursor never resets -/

/-- C7 counterexample: with `frame_loops = 1` the reset condition
`(frame_counter + 1) % frame_loops == 1` is false at every frame — the
cursor is reset zero times per superframe, not once: after two passes (two
whole superframes) the pointer still sits at 1. -/
theorem C7_cex :
    c7s0.frame_loops = 1 ∧
    rrnResetFires c7s0 = false ∧
    rrnResetFires (round_robin_no_queue_info_first_come_first_served c7s0) = false ∧
    (round_robin_no_queue_info_first_come_first_served
      (round_robin_no_queue_info_first_come_first_served c7s0)).node_pointer = 1 := by
  refine ⟨by decide, by decide, by decide, by decide⟩

end MMSim
